import Mathlib

/-!
# Medical-Report-Summarizer frontend: Dashboard, Login, Signup and Upload

A shallow embedding of the client-side logic of
`frontend/src/pages/Dashboard.jsx`, `Login.jsx`, `Signup.jsx` and `Upload.jsx`.

Conventions of the embedding.

* A JavaScript string is the list of its UTF-16 code units (`JSString`).
  `slice`, `split`, the regular expressions `/\s+/g` and `/[^\x20-\x7E]/g`
  (both without the `u` flag) and `trim` all work code unit by code unit.
* `null` and `undefined` are `none` of an `Option`.
* Report ids are integers.  A plain object used as a dictionary keyed by
  report id (`latestByReport`, `pendingDeletes`) is an association list keyed
  by the id: property-key conversion of an integer is injective, so two ids
  share a property exactly when they are equal.
* `String.prototype.toLowerCase` is a parameter of the definitions that use it.
* A JSON number is an integer, and `String(n)` is its decimal numeral.
* An object parsed from JSON is the list of its entries in the order of
  `Object.entries`.
-/

namespace MedRep


/-! ## Strings -/

/-- A UTF-16 code unit. -/
abbrev CodeUnit := Nat

/-- A JavaScript string: its sequence of UTF-16 code units. -/
abbrev JSString := List CodeUnit

/-- The code units of one Unicode scalar value (a surrogate pair above the BMP). -/
def charUnits (c : Char) : List CodeUnit :=
  if c.toNat < 65536 then [c.toNat]
  else [55296 + (c.toNat - 65536) / 1024, 56320 + (c.toNat - 65536) % 1024]

/-- The JavaScript string written by a literal. -/
def js (s : String) : JSString :=
  s.toList.flatMap charUnits

/-- Truthiness of a string: only the empty string is falsy. -/
def strTruthy (s : JSString) : Bool :=
  !s.isEmpty

/-- Truthiness of a value that is a string, `null` or `undefined`. -/
def optTruthy : Option JSString → Bool
  | none => false
  | some s => strTruthy s

/-- The class `\s` of a regular expression, which is also what `trim` strips:
ECMAScript WhiteSpace and LineTerminator. -/
def isWhiteSpace (c : CodeUnit) : Bool :=
  c == 9 || c == 10 || c == 11 || c == 12 || c == 13 || c == 32 || c == 160 ||
  c == 5760 || (8192 ≤ c && c ≤ 8202) || c == 8232 || c == 8233 || c == 8239 ||
  c == 8287 || c == 12288 || c == 65279

/-- Worker of `replaceWhiteSpaceRuns`; `inRun` records that the previous code
unit belonged to the whitespace run being replaced. -/
def replaceWhiteSpaceRunsAux : Bool → JSString → JSString
  | _, [] => []
  | inRun, c :: cs =>
    if isWhiteSpace c then
      if inRun then replaceWhiteSpaceRunsAux true cs
      else 32 :: replaceWhiteSpaceRunsAux true cs
    else c :: replaceWhiteSpaceRunsAux false cs

/-- The call `s.replace(/\s+/g, ' ')`: every maximal run of whitespace becomes one space. -/
def replaceWhiteSpaceRuns (s : JSString) : JSString :=
  replaceWhiteSpaceRunsAux false s

/-- The call `s.trim()`. -/
def trim (s : JSString) : JSString :=
  ((s.dropWhile isWhiteSpace).reverse.dropWhile isWhiteSpace).reverse

/-- The call `s.slice(0, n)`. -/
def slice0 (n : Nat) (s : JSString) : JSString :=
  s.take n

/-- The call `s.split(sep)` for a one-unit separator. -/
def split (sep : CodeUnit) : JSString → List JSString
  | [] => [[]]
  | c :: cs =>
    if c = sep then [] :: split sep cs
    else
      match split sep cs with
      | [] => [[c]]
      | p :: ps => (c :: p) :: ps

/-- The count `(s.match(/[^\x20-\x7E]/g) || []).length`. -/
def nonPrintableCount (s : JSString) : Nat :=
  (s.filter (fun c => !(32 ≤ c && c ≤ 126))).length

/-- The lower-casing of the ASCII letters, leaving every other code unit alone. -/
def asciiToLowerCase (s : JSString) : JSString :=
  s.map (fun c => if 65 ≤ c ∧ c ≤ 90 then c + 32 else c)

/-- The decimal numeral of a natural number. -/
def natToString (n : Nat) : JSString :=
  (Nat.toDigits 10 n).map Char.toNat

/-- The conversion `String(n)` of an integer. -/
def intToString : Int → JSString
  | Int.ofNat n => natToString n
  | Int.negSucc n => 45 :: natToString (n + 1)

namespace Dashboard

/-! ## Objects used as dictionaries keyed by report id -/

/-- A plain object whose properties are named by report ids. -/
abbrev IdMap (α : Type) := List (Int × α)

namespace IdMap

/-- The property read `m[k]`. -/
def get {α : Type} (m : IdMap α) (k : Int) : Option α :=
  (m.find? (fun e => e.1 == k)).map Prod.snd

/-- The property write `m[k] = v`: replaces the value of an own property,
or creates the property. -/
def set {α : Type} : IdMap α → Int → α → IdMap α
  | [], k, v => [(k, v)]
  | e :: m, k, v => if e.1 == k then (k, v) :: m else e :: set m k v

/-- The statement `delete m[k]`. -/
def delete {α : Type} (m : IdMap α) (k : Int) : IdMap α :=
  m.filter (fun e => !(e.1 == k))

/-- The own property names. -/
def keys {α : Type} (m : IdMap α) : List Int :=
  m.map Prod.fst

end IdMap

/-! ## Data received from the server -/

/-- A summary as returned by `listSummaries`. -/
structure Summary where
  report : Int
  summary_text : Option JSString
  created_at : Option JSString
  deriving DecidableEq, Repr

/-- A report as returned by `listReports`. -/
structure Report where
  id : Int
  original_file : Option JSString
  extracted_text : Option JSString
  uploaded_at : Option JSString
  created_at : Option JSString
  deriving DecidableEq, Repr

/-- A dashboard card, an element of the `reports` state. -/
structure Card where
  id : Int
  name : JSString
  date : Option JSString
  snippet : Option JSString
  deriving DecidableEq, Repr

/-! ## `fetchReports`: latest summary per report -/

/-- One iteration of the loop of lines 102-105:
`if (!latestByReport[s.report]) latestByReport[s.report] = s;`
(a summary object is truthy, so the test is whether the property exists). -/
def latestStep (m : IdMap Summary) (s : Summary) : IdMap Summary :=
  match m.get s.report with
  | some _ => m
  | none => m.set s.report s

/-- The object `latestByReport` after the loop over `summaries`. -/
def latestByReport (summaries : List Summary) : IdMap Summary :=
  summaries.foldl latestStep []

/-! ## `fetchReports`: one card per report -/

/-- Line 108: `r.original_file ? r.original_file.split('/').pop() : ''`. -/
def filenameOf (r : Report) : JSString :=
  match r.original_file with
  | none => []
  | some f => if strTruthy f then ((split 47 f).getLast?).getD [] else []

/-- Lines 109-110: `parts.length > 1 ? parts[parts.length - 1].toLowerCase() : ''`
with `parts = filename.split('.')`. -/
def extOf (toLowerCase : JSString → JSString) (filename : JSString) : JSString :=
  let parts := split 46 filename
  if parts.length > 1 then toLowerCase ((parts.getLast?).getD []) else []

/-- Line 119: the allow-list of text-like extensions. -/
def textLikeExts : List JSString :=
  [js "pdf", js "docx", js "doc", js "txt", js "md", js "rtf", js "html", js "htm"]

/-- The text `s.replace(/\s+/g, ' ').trim()` of lines 115 and 122. -/
def cleanedOf (s : JSString) : JSString :=
  trim (replaceWhiteSpaceRuns s)

/-- The test `latest && latest.summary_text` of line 114, returning the text
when the test is truthy. -/
def usableSummaryText (latest : Option Summary) : Option JSString :=
  match latest with
  | none => none
  | some s =>
    match s.summary_text with
    | none => none
    | some t => if strTruthy t then some t else none

/-- Lines 112-127: the value of `snippet` for report `r`. -/
def snippetOf (toLowerCase : JSString → JSString) (latest : IdMap Summary) (r : Report) :
    Option JSString :=
  match usableSummaryText (latest.get r.id) with
  | some t => some (slice0 180 (cleanedOf t))
  | none =>
    if textLikeExts.contains (extOf toLowerCase (filenameOf r)) && optTruthy r.extracted_text then
      let cleaned := cleanedOf (r.extracted_text.getD [])
      if nonPrintableCount cleaned < 40 then some (slice0 180 cleaned) else none
    else none

/-- The value `a || b || null` of line 132. -/
def dateOf (r : Report) : Option JSString :=
  if optTruthy r.uploaded_at then r.uploaded_at
  else if optTruthy r.created_at then r.created_at
  else none

/-- Lines 107-135: the callback of `(res.data || []).map`. -/
def mapReport (toLowerCase : JSString → JSString) (latest : IdMap Summary) (r : Report) : Card :=
  let filename := filenameOf r
  { id := r.id
    name := if strTruthy filename then filename else js "Report " ++ intToString r.id
    date := dateOf r
    snippet := snippetOf toLowerCase latest r }

/-- The outcome of an awaited API call: the promise rejects, or resolves to a
response whose `data` may be `null`. -/
inductive Response (α : Type) where
  | rejected
  | resolved (data : Option α)
  deriving DecidableEq, Repr

/-! ## The Dashboard view and its environment -/

/-- A value of `pendingDeletes`: `{ report: reportObj, timer }`. -/
structure PendingDelete where
  report : Card
  timer : Nat
  deriving DecidableEq, Repr

/-- A timeout scheduled by line 31 and not yet fired or cleared, with the
variables its callback closes over. -/
structure Timer where
  handle : Nat
  token : JSString
  reportId : Int
  reportObj : Card
  deriving DecidableEq, Repr

/-- A notification handed to `react-hot-toast`. -/
inductive Toast where
  | success (msg : JSString)
  | error (msg : JSString)
  | undoable (toastId : Nat) (reportId : Int) (reportObj : Card)
  deriving DecidableEq, Repr

/-- The component state of `Dashboard` (lines 8-12) together with the part of
its environment that the handlers act on: the scheduled timeouts, the
notifications shown, and the `deleteReport` calls made so far. -/
structure DashState where
  reports : List Card
  openMenu : Option Int
  loading : Bool
  error : Option JSString
  pendingDeletes : IdMap PendingDelete
  timers : List Timer
  nextTimer : Nat
  toasts : List Toast
  nextToast : Nat
  deleteCalls : List (JSString × Int)
  deriving DecidableEq, Repr

/-- The state of a freshly mounted `Dashboard`. -/
def DashState.initial : DashState :=
  { reports := [], openMenu := none, loading := false, error := none, pendingDeletes := [],
    timers := [], nextTimer := 1, toasts := [], nextToast := 1, deleteCalls := [] }

/-- Line 139: the message stored by `setError`. -/
def loadErrorMessage : JSString :=
  js "Could not load reports. Are you signed in?"

/-- Lines 84-143: `fetchReports`, given the stored token and the outcomes of
`listReports` and `listSummaries`. -/
def fetchReports (toLowerCase : JSString → JSString) (token : Option JSString)
    (res : Response (List Report)) (sres : Response (List Summary)) (s : DashState) : DashState :=
  if !optTruthy token then s
  else
    match res with
    | .rejected => { s with error := some loadErrorMessage, loading := false }
    | .resolved data =>
      let summaries : List Summary :=
        match sres with
        | .rejected => []
        | .resolved sdata => sdata.getD []
      let latest := latestByReport summaries
      { s with reports := (data.getD []).map (mapReport toLowerCase latest)
               error := none
               loading := false }

/-- The call `clearTimeout(handle)`. -/
def clearTimeout (timers : List Timer) (handle : Nat) : List Timer :=
  timers.filter (fun t => !(t.handle == handle))

/-- Lines 14-81: `handleRemove(reportId)`, given the answer to `window.confirm`
and the stored token.  The result is `none` when the authenticated branch is
entered for an id that no card of `reports` has: `reportObj` is `undefined`
there, a value the card list of this model does not hold.  The Remove button
exists only on rendered cards, so the view calls `handleRemove` with the id of
a card of `reports`. -/
def handleRemove (s : DashState) (confirmRemove : Bool) (token : Option JSString)
    (reportId : Int) : Option DashState :=
  if !confirmRemove then some s
  else
    match token with
    | none => some { s with reports := s.reports.filter (fun r => !(r.id == reportId)) }
    | some tok =>
      if !strTruthy tok then
        some { s with reports := s.reports.filter (fun r => !(r.id == reportId)) }
      else
        match s.reports.find? (fun r => r.id == reportId) with
        | none => none
        | some reportObj =>
          some { s with
            reports := s.reports.filter (fun r => !(r.id == reportId))
            timers := s.timers ++ [{ handle := s.nextTimer, token := tok,
                                     reportId := reportId, reportObj := reportObj }]
            nextTimer := s.nextTimer + 1
            pendingDeletes :=
              s.pendingDeletes.set reportId { report := reportObj, timer := s.nextTimer }
            toasts := s.toasts ++ [Toast.undoable s.nextToast reportId reportObj]
            nextToast := s.nextToast + 1
            loading := false }

/-- Lines 55-68: the `onClick` of the Undo button of the notification `toastId`
created by `handleRemove(reportId)` with captured `reportObj`. -/
def undo (s : DashState) (reportId : Int) (reportObj : Card) (toastId : Nat) : DashState :=
  { s with
    timers :=
      match s.pendingDeletes.get reportId with
      | some entry => clearTimeout s.timers entry.timer
      | none => s.timers
    pendingDeletes := s.pendingDeletes.delete reportId
    reports := reportObj :: s.reports
    toasts := s.toasts.filter (fun t =>
      match t with
      | Toast.undoable i _ _ => !(i == toastId)
      | _ => true) }

/-- Lines 31-47: the timeout with handle `handle` elapses.  A cleared (or
already fired) timeout does nothing; otherwise the callback runs, `deleteOk`
telling whether `deleteReport` resolves. -/
def timerFire (s : DashState) (handle : Nat) (deleteOk : Bool) : DashState :=
  match s.timers.find? (fun t => t.handle == handle) with
  | none => s
  | some t =>
    { s with
      timers := clearTimeout s.timers handle
      deleteCalls := s.deleteCalls ++ [(t.token, t.reportId)]
      toasts := s.toasts ++
        [if deleteOk then Toast.success (js "Report deleted")
         else Toast.error (js "Failed to delete on server")]
      reports := if deleteOk then s.reports else t.reportObj :: s.reports
      pendingDeletes := s.pendingDeletes.delete t.reportId }

/-- A sequence of timeouts elapsing, each with the outcome of its `deleteReport`. -/
def runTimers (s : DashState) (fires : List (Nat × Bool)) : DashState :=
  fires.foldl (fun st f => timerFire st f.1 f.2) s

/-- The guarantee of `setTimeout` that a new handle differs from the handle of
every timeout still scheduled. -/
def DashState.timersFresh (s : DashState) : Prop :=
  ∀ t ∈ s.timers, t.handle < s.nextTimer

/-! ## What `Dashboard` renders -/

/-- The alternative rendered by lines 162-237 below the heading. -/
inductive Body where
  | signedOut
  | noReports
  | grid (cards : List Card)
  deriving DecidableEq, Repr

/-- Lines 162-237: which alternative is rendered. -/
def renderBody (token : Option JSString) (s : DashState) : Body :=
  if !optTruthy token then Body.signedOut
  else if s.reports.length == 0 then Body.noReports
  else Body.grid s.reports

/-- The text nodes of one card (lines 182-233). -/
def cardTexts (openMenu : Option Int) (c : Card) : List JSString :=
  (if openMenu = some c.id then [js "Remove"] else []) ++
  [c.name] ++
  (match c.snippet with
   | some t => if strTruthy t then [t ++ js "..."] else []
   | none => []) ++
  [js "Uploaded on " ++ c.date.getD [], js "View Summary"]

/-- The text nodes of a notification. -/
def toastTexts : Toast → List JSString
  | Toast.success msg => [msg]
  | Toast.error msg => [msg]
  | Toast.undoable _ _ _ => [js "Report removed", js "Undo"]

/-- Lines 148-240: every text node of the rendered view, in document order. -/
def renderTexts (token : Option JSString) (s : DashState) : List JSString :=
  [js "Your Uploaded Reports"] ++
  s.toasts.flatMap toastTexts ++
  (match renderBody token s with
   | Body.signedOut =>
     [js "You are not signed in \u00e2\u20ac\u201d your uploaded reports will appear here.",
      js "Login", js "Signup",
      js "Or upload a report after signing in to see it listed."]
   | Body.noReports => [js "No reports found."]
   | Body.grid cards => cards.flatMap (cardTexts s.openMenu))

end Dashboard

/-! ## JSON values -/

/-- A value parsed from a JSON response body. -/
inductive JSValue where
  | null
  | bool (b : Bool)
  | num (n : Int)
  | str (s : JSString)
  | arr (xs : List JSValue)
  | obj (entries : List (JSString × JSValue))

namespace JSValue

/-- Truthiness (ToBoolean). -/
def truthy : JSValue → Bool
  | null => false
  | bool b => b
  | num n => !(n == 0)
  | str s => strTruthy s
  | arr _ => true
  | obj _ => true

/-- The test `Array.isArray(v)`. -/
def isArray : JSValue → Bool
  | arr _ => true
  | _ => false

mutual
/-- The conversion `String(v)` (ToString); an array converts to `v.join(",")`. -/
def toJSString : JSValue → JSString
  | null => js "null"
  | bool b => if b then js "true" else js "false"
  | num n => intToString n
  | str s => s
  | arr xs => joinValues (js ",") xs
  | obj _ => js "[object Object]"
/-- The call `xs.join(sep)` on an array of values: a separator before every
element but the first, `null` elements contributing the empty string. -/
def joinValues (sep : JSString) : List JSValue → JSString
  | [] => []
  | [x] => elementString x
  | x :: y :: rest => elementString x ++ sep ++ joinValues sep (y :: rest)
/-- The string an element contributes to `join`. -/
def elementString : JSValue → JSString
  | null => []
  | bool b => if b then js "true" else js "false"
  | num n => intToString n
  | str s => s
  | arr xs => joinValues (js ",") xs
  | obj _ => js "[object Object]"
end

/-- The test `typeof v === "object"` for a value that is not `null`. -/
def isObject : JSValue → Bool
  | arr _ => true
  | obj _ => true
  | _ => false

/-- The property read `data.detail` on an object or array; `none` is `undefined`. -/
def detail : JSValue → Option JSValue
  | obj entries => (entries.find? (fun e => e.1 == js "detail")).map Prod.snd
  | _ => none

/-- The pairs of `Object.entries(data)` for an object or an array (whose keys
are the decimal indices). -/
def objectEntries : JSValue → List (JSString × JSValue)
  | obj entries => entries
  | arr xs => xs.enum.map (fun p => (natToString p.1, p.2))
  | _ => []

end JSValue

/-- The call `parts.join(sep)` on an array of strings, as the loop of
`Array.prototype.join`: the accumulator receives the separator and then the
next element, for every element after the first. -/
def joinStrings (sep : JSString) : List JSString → JSString
  | [] => []
  | x :: xs => xs.foldl (fun acc y => acc ++ sep ++ y) x

/-- The expression `Array.isArray(v) ? v.join(" ") : String(v)` of both forms. -/
def messageOf (v : JSValue) : JSString :=
  match v with
  | JSValue.arr xs => JSValue.joinValues (js " ") xs
  | other => JSValue.toJSString other

/-- The call `JSON.stringify(data)` where both forms reach it: `data` is truthy,
not a string and not an object, so it is a number or `true`. -/
def jsonStringifyPrimitive : JSValue → JSString
  | JSValue.bool b => if b then js "true" else js "false"
  | JSValue.num n => intToString n
  | _ => []

/-- The outcome of the awaited API call of a form: it resolves, or it rejects
with `err.response?.data` (`none` when there is no response or no body). -/
inductive CallResult (α : Type) where
  | resolved (data : α)
  | rejected (data : Option JSValue)

namespace Login

/-- The state of the Login form and what `handleSubmit` leaves in its
environment. -/
structure State where
  error : JSValue
  loading : Bool
  accessToken : Option JSString
  refreshToken : Option JSString
  navigatedTo : Option JSString

/-- The fields of `res.data` that `handleSubmit` reads. -/
structure TokenData where
  access : Option JSString
  refresh : Option JSString

/-- Line 39: the fallback message. -/
def fallbackMessage : JSString :=
  js "Login failed. Check credentials."

/-- Lines 30-40: the value passed to `setError` in the `catch` block, for
`data = err.response?.data`. -/
def errorOf (data : Option JSValue) : JSValue :=
  match data with
  | none => JSValue.str fallbackMessage
  | some d =>
    if !d.truthy then JSValue.str fallbackMessage
    else
      match d with
      | JSValue.str s => JSValue.str s
      | JSValue.obj _ | JSValue.arr _ =>
        let parts := d.objectEntries.map (fun e => messageOf e.2)
        match d.detail with
        | some v => if v.truthy then v else JSValue.str (joinStrings (js " | ") parts)
        | none => JSValue.str (joinStrings (js " | ") parts)
      | other => JSValue.str (jsonStringifyPrimitive other)

/-- Lines 14-44: `handleSubmit`, given the outcome of `token(username, password)`. -/
def handleSubmit (s : State) (r : CallResult TokenData) : State :=
  match r with
  | CallResult.resolved d =>
    if optTruthy d.access then
      { s with
        error := JSValue.str []
        loading := false
        accessToken := d.access
        refreshToken := if optTruthy d.refresh then d.refresh else s.refreshToken
        navigatedTo := some (js "/upload") }
    else
      { s with error := JSValue.str (js "Login failed: no token returned"), loading := false }
  | CallResult.rejected data => { s with error := errorOf data, loading := false }

end Login

namespace Signup

/-- The state of the Signup form and what `handleSubmit` leaves in its
environment. -/
structure State where
  error : JSString
  loading : Bool
  navigatedTo : Option JSString

/-- Line 49: the fallback message. -/
def fallbackMessage : JSString :=
  js "Signup failed. Please check your input or try again."

/-- Lines 34-50: the text passed to `setError` in the `catch` block, for
`data = err.response?.data`. -/
def errorOf (data : Option JSValue) : JSString :=
  match data with
  | none => fallbackMessage
  | some d =>
    if !d.truthy then fallbackMessage
    else
      match d with
      | JSValue.str s => s
      | JSValue.obj _ | JSValue.arr _ =>
        let parts := d.objectEntries.map (fun e => e.1 ++ js ": " ++ messageOf e.2)
        joinStrings (js " | ") parts
      | other => jsonStringifyPrimitive other

/-- Lines 21-54: `handleSubmit`, given the outcome of `register(...)`. -/
def handleSubmit (s : State) (r : CallResult Unit) : State :=
  match r with
  | CallResult.resolved _ =>
    { s with error := [], loading := false, navigatedTo := some (js "/login") }
  | CallResult.rejected data => { s with error := errorOf data, loading := false }

end Signup

/-! ## The specification's wording of the derived fields -/

/-- The text after the last occurrence of `sep` in `s`, which is all of `s`
when `sep` does not occur in it. -/
def afterLast (sep : CodeUnit) (s : JSString) : JSString :=
  (s.reverse.takeWhile (fun c => c != sep)).reverse

/-- The last `/`-separated segment of `original_file`, empty when the field is missing. -/
def lastSegment (original_file : Option JSString) : JSString :=
  match original_file with
  | none => []
  | some f => afterLast 47 f

/-- The file extension as the specification words it: the lower-cased text
after the last `.` of the last path segment, or empty when there is no `.`. -/
def extensionSpec (toLowerCase : JSString → JSString) (original_file : Option JSString) :
    JSString :=
  if 46 ∈ lastSegment original_file then toLowerCase (afterLast 46 (lastSegment original_file))
  else []

/-- The specification's message of one key: an array of messages joined with
single spaces, any other value converted to a string. -/
def specMessage : JSValue → JSString
  | JSValue.arr xs => (js " ").intercalate (xs.map JSValue.elementString)
  | v => v.toJSString

/-- The specification's Signup text for a mapping: the lines `<key>: <message>`
for the keys in their order, joined with " | ". -/
def specKeyedLines (entries : List (JSString × JSValue)) : JSString :=
  (js " | ").intercalate (entries.map (fun e => e.1 ++ js ": " ++ specMessage e.2))

/-- The messages of a mapping without their keys, joined with " | ". -/
def specBareLines (entries : List (JSString × JSValue)) : JSString :=
  (js " | ").intercalate (entries.map (fun e => specMessage e.2))

/-! ## Concrete inputs -/

namespace Dashboard

/-- A text report whose first 180 code units are the letter `a` and whose next
40 are `é` (U+00E9). -/
def accentedTailReport : Report :=
  { id := 1
    original_file := some (js "/u/notes.txt")
    extracted_text := some (List.replicate 180 97 ++ List.replicate 40 233)
    uploaded_at := none
    created_at := none }

/-- A report with an image file name and some extracted text. -/
def imageReport : Report :=
  { id := 1
    original_file := some (js "/u/x.png")
    extracted_text := some (js "scanned  text")
    uploaded_at := none
    created_at := none }

/-- A text report with extracted text. -/
def textReport : Report :=
  { id := 2
    original_file := some (js "/u/Notes.TXT")
    extracted_text := some (js " blood   pressure\n normal ")
    uploaded_at := none
    created_at := none }

/-- Two summaries of report 1, the newer first, and one of report 3. -/
def sampleSummaries : List Summary :=
  [ { report := 1, summary_text := some (js "Patient  shows\nnormal vitals. "), created_at := none },
    { report := 3, summary_text := none, created_at := none },
    { report := 1, summary_text := some (js "older"), created_at := none } ]

/-- The card of report 7. -/
def card7 : Card :=
  { id := 7, name := js "scan.pdf", date := none, snippet := none }

/-- The card of report 8. -/
def card8 : Card :=
  { id := 8, name := js "notes.txt", date := none, snippet := some (js "normal") }

/-- A mounted dashboard showing the cards of reports 8 and 7. -/
def twoCards : DashState :=
  { DashState.initial with reports := [card8, card7] }

end Dashboard

/-- The error body of the Signup scenario. -/
def emailErrorBody : JSValue :=
  JSValue.obj [(js "email", JSValue.arr [JSValue.str (js "Enter a valid email address.")])]

/-- The error body of the Login scenario. -/
def detailErrorBody : JSValue :=
  JSValue.obj [(js "detail", JSValue.str (js "No active account found with the given credentials"))]

/-- An error body whose `detail` is the empty string, beside another key. -/
def emptyDetailBody : JSValue :=
  JSValue.obj [(js "detail", JSValue.str []),
               (js "non_field_errors", JSValue.arr [JSValue.str (js "bad")])]

/-- A Login form state before submitting. -/
def Login.idle : Login.State :=
  { error := JSValue.str [], loading := false, accessToken := none, refreshToken := none,
    navigatedTo := none }

/-- A Signup form state before submitting. -/
def Signup.idle : Signup.State :=
  { error := [], loading := false, navigatedTo := none }

/-! ## `JSON.stringify` and property reads on parsed JSON -/

namespace JSValue

/-- The property read `v[key]` for a key that no prototype defines (`id`, `pk`,
`summary`, `summary_text`): an own property of an object, `undefined` (`none`)
on every other value. -/
def prop (v : JSValue) (key : JSString) : Option JSValue :=
  match v with
  | obj entries => (entries.find? (fun e => e.1 == key)).map Prod.snd
  | _ => none

/-- Truthiness of a value that may be `undefined`. -/
def optTruthy : Option JSValue → Bool
  | none => false
  | some v => v.truthy

/-- The expression `a || b`. -/
def orElse (a b : Option JSValue) : Option JSValue :=
  if optTruthy a then a else b

/-- A lower-case hexadecimal digit. -/
def hexDigit (n : Nat) : CodeUnit :=
  if n < 10 then 48 + n else 87 + n

/-- The escape `\uXXXX` of a code unit. -/
def unicodeEscape (c : CodeUnit) : JSString :=
  [92, 117, hexDigit (c / 4096 % 16), hexDigit (c / 256 % 16), hexDigit (c / 16 % 16),
   hexDigit (c % 16)]

/-- The body of QuoteJSONString: the escapes of `"` and `\`, of the control
characters and of unpaired surrogates. -/
def quoteUnits : JSString → JSString
  | [] => []
  | c :: cs =>
    if c = 34 then 92 :: 34 :: quoteUnits cs
    else if c = 92 then 92 :: 92 :: quoteUnits cs
    else if c = 8 then 92 :: 98 :: quoteUnits cs
    else if c = 9 then 92 :: 116 :: quoteUnits cs
    else if c = 10 then 92 :: 110 :: quoteUnits cs
    else if c = 12 then 92 :: 102 :: quoteUnits cs
    else if c = 13 then 92 :: 114 :: quoteUnits cs
    else if c < 32 then unicodeEscape c ++ quoteUnits cs
    else if 55296 ≤ c ∧ c ≤ 56319 then
      match cs with
      | d :: ds =>
        if 56320 ≤ d ∧ d ≤ 57343 then c :: d :: quoteUnits ds
        else unicodeEscape c ++ quoteUnits (d :: ds)
      | [] => unicodeEscape c
    else if 56320 ≤ c ∧ c ≤ 57343 then unicodeEscape c ++ quoteUnits cs
    else c :: quoteUnits cs

/-- The JSON text of a string. -/
def quote (s : JSString) : JSString :=
  34 :: quoteUnits s ++ [34]

mutual
/-- The call `JSON.stringify(v)` on a value parsed from JSON. -/
def stringify : JSValue → JSString
  | null => js "null"
  | bool b => if b then js "true" else js "false"
  | num n => intToString n
  | str s => quote s
  | arr xs => 91 :: stringifyElements xs ++ [93]
  | obj entries => 123 :: stringifyEntries entries ++ [125]
/-- The elements of an array, separated by commas. -/
def stringifyElements : List JSValue → JSString
  | [] => []
  | [x] => stringify x
  | x :: y :: rest => stringify x ++ 44 :: stringifyElements (y :: rest)
/-- The members of an object, separated by commas. -/
def stringifyEntries : List (JSString × JSValue) → JSString
  | [] => []
  | [(k, v)] => quote k ++ 58 :: stringify v
  | (k, v) :: e :: rest => quote k ++ 58 :: stringify v ++ 44 :: stringifyEntries (e :: rest)
end

end JSValue

/-! ## The Upload view -/

namespace Upload

/-- The chosen `File`. -/
structure File where
  name : JSString
  deriving DecidableEq, Repr

/-- A notification handed to `react-hot-toast`. -/
inductive Notice where
  | success (msg : JSString)
  | error (msg : JSString)
  deriving DecidableEq, Repr

/-- The component state of `Upload` (lines 7-9) together with what
`handleUpload` leaves in its environment: the notifications shown, the
arguments of every `setLoading` call, and the calls made to `uploadReport` and
`createSummary`. -/
structure State where
  file : Option File
  loading : Bool
  summary : JSValue
  notices : List Notice
  setLoadingCalls : List Bool
  uploadCalls : List (JSString × File)
  summaryCalls : List (JSString × JSValue)

/-- Line 47: the message shown when no report id is found. -/
def noIdMessage : JSString :=
  js "Uploaded but could not determine report id to summarize."

/-- Line 39: `report.id || report.pk`. -/
def reportIdOf (report : JSValue) : Option JSValue :=
  JSValue.orElse (report.prop (js "id")) (report.prop (js "pk"))

/-- Line 44: `sumRes.data?.summary || sumRes.data?.summary_text ||
sumRes.data?.summary_text || JSON.stringify(sumRes.data)`. -/
def summaryTextOf (data : JSValue) : JSValue :=
  match JSValue.orElse (data.prop (js "summary"))
      (JSValue.orElse (data.prop (js "summary_text")) (data.prop (js "summary_text"))) with
  | some v => if v.truthy then v else JSValue.str data.stringify
  | none => JSValue.str data.stringify

/-- Lines 49-54: the `catch` block followed by the `finally` block. -/
def failed (s : State) : State :=
  { s with
    notices := s.notices ++ [Notice.error (js "Upload failed. Check console for details.")]
    loading := false
    setLoadingCalls := s.setLoadingCalls ++ [false] }

/-- Lines 52-54: the `finally` block after a `try` block that completed. -/
def finished (s : State) : State :=
  { s with loading := false, setLoadingCalls := s.setLoadingCalls ++ [false] }

/-- Lines 13-55: `handleUpload`, given the stored token and the outcomes of
`uploadReport` and of `createSummary` (the latter is consulted only when the
call is made). -/
def handleUpload (s : State) (token : Option JSString) (uploadRes : CallResult JSValue)
    (sumRes : CallResult JSValue) : State :=
  let s0 : State := { s with summary := JSValue.str [] }
  match s0.file with
  | none => { s0 with notices := s0.notices ++ [Notice.error (js "Please select a file first!")] }
  | some file =>
    if !MedRep.optTruthy token then
      { s0 with
        notices := s0.notices ++ [Notice.error (js "You must be logged in to upload.")] }
    else
      let tok := token.getD []
      let s1 : State :=
        { s0 with
          loading := true
          setLoadingCalls := s0.setLoadingCalls ++ [true]
          uploadCalls := s0.uploadCalls ++ [(tok, file)] }
      match uploadRes with
      | CallResult.rejected _ => failed s1
      | CallResult.resolved report =>
        let s2 : State :=
          { s1 with
            notices := s1.notices ++ [Notice.success (js "File uploaded successfully!")]
            file := none }
        match report with
        | JSValue.null => failed s2
        | _ =>
          match reportIdOf report with
          | none => finished { s2 with summary := JSValue.str noIdMessage }
          | some id =>
            if id.truthy then
              let s3 : State := { s2 with summaryCalls := s2.summaryCalls ++ [(tok, id)] }
              match sumRes with
              | CallResult.rejected _ => failed s3
              | CallResult.resolved data => finished { s3 with summary := summaryTextOf data }
            else finished { s2 with summary := JSValue.str noIdMessage }

end Upload

namespace Upload

/-- The Upload form with `scan.pdf` chosen. -/
def chosen : State :=
  { file := some { name := js "scan.pdf" }, loading := false, summary := JSValue.str [],
    notices := [], setLoadingCalls := [], uploadCalls := [], summaryCalls := [] }

/-- The Upload form with no file chosen. -/
def idle : State :=
  { file := none, loading := false, summary := JSValue.str [],
    notices := [], setLoadingCalls := [], uploadCalls := [], summaryCalls := [] }

/-- The upload response `{id: 42}`. -/
def created42 : JSValue :=
  JSValue.obj [(js "id", JSValue.num 42)]

/-- The summarize response `{summary_text: "Patient shows normal vitals."}`. -/
def vitalsSummary : JSValue :=
  JSValue.obj [(js "summary_text", JSValue.str (js "Patient shows normal vitals."))]

/-- A summarize response whose `summary` is the empty string beside a
`summary_text`. -/
def emptySummaryBody : JSValue :=
  JSValue.obj [(js "summary", JSValue.str []),
               (js "summary_text", JSValue.str (js "Patient shows normal vitals."))]

end Upload

/-- The first truthy value among candidates that may be `undefined`. -/
def firstTruthy : List (Option JSValue) → Option JSValue
  | [] => none
  | a :: rest => if JSValue.optTruthy a then a else firstTruthy rest

/-! # Theorems -/

namespace Dashboard

/-! ## Lemmas on dictionaries -/

theorem IdMap.get_nil {α : Type} (k : Int) : IdMap.get ([] : IdMap α) k = none := rfl

theorem IdMap.get_cons {α : Type} (e : Int × α) (m : IdMap α) (k : Int) :
    IdMap.get (e :: m) k = if e.1 = k then some e.2 else IdMap.get m k := by
  unfold IdMap.get
  by_cases h : e.1 = k
  · simp [List.find?_cons, h]
  · simp [List.find?_cons, h]

theorem IdMap.get_set_self {α : Type} (m : IdMap α) (k : Int) (v : α) :
    IdMap.get (IdMap.set m k v) k = some v := by
  induction m with
  | nil => simp [IdMap.set, IdMap.get_cons]
  | cons e m ih =>
    by_cases h : e.1 = k
    · simp [IdMap.set, h, IdMap.get_cons]
    · simp [IdMap.set, h, IdMap.get_cons, ih]

theorem IdMap.get_set_ne {α : Type} (m : IdMap α) (k k' : Int) (v : α) (hne : k ≠ k') :
    IdMap.get (IdMap.set m k v) k' = IdMap.get m k' := by
  induction m with
  | nil => simp [IdMap.set, IdMap.get_cons, IdMap.get_nil, hne]
  | cons e m ih =>
    by_cases h : e.1 = k
    · have h' : e.1 ≠ k' := by rw [h]; exact hne
      simp [IdMap.set, h, IdMap.get_cons, hne, h']
    · simp [IdMap.set, h, IdMap.get_cons, ih]

theorem IdMap.get_eq_none_iff {α : Type} (m : IdMap α) (k : Int) :
    IdMap.get m k = none ↔ k ∉ IdMap.keys m := by
  induction m with
  | nil => simp [IdMap.get_nil, IdMap.keys]
  | cons e m ih =>
    by_cases h : e.1 = k
    · simp [IdMap.get_cons, h, IdMap.keys]
    · have h' : ¬ k = e.1 := fun x => h x.symm
      simp only [IdMap.get_cons, h, if_false, ih, IdMap.keys, List.map_cons, List.mem_cons,
        not_or, h', not_false_eq_true, true_and]

theorem IdMap.keys_set_of_get_none {α : Type} (m : IdMap α) (k : Int) (v : α)
    (h : IdMap.get m k = none) : IdMap.keys (IdMap.set m k v) = IdMap.keys m ++ [k] := by
  induction m with
  | nil => rfl
  | cons e m ih =>
    rw [IdMap.get_cons] at h
    by_cases hk : e.1 = k
    · simp [hk] at h
    · simp only [hk, if_false] at h
      simp [IdMap.set, hk, IdMap.keys] at ih ⊢
      exact ih h

theorem IdMap.keys_delete {α : Type} (m : IdMap α) (k : Int) :
    k ∉ IdMap.keys (IdMap.delete m k) := by
  simp [IdMap.keys, IdMap.delete]

theorem IdMap.get_delete_self {α : Type} (m : IdMap α) (k : Int) :
    IdMap.get (IdMap.delete m k) k = none :=
  (IdMap.get_eq_none_iff _ _).2 (IdMap.keys_delete m k)

/-! ## The latest-summary map -/

theorem latestStep_keys_nodup (m : IdMap Summary) (s : Summary) (h : (IdMap.keys m).Nodup) :
    (IdMap.keys (latestStep m s)).Nodup := by
  unfold latestStep
  cases hg : IdMap.get m s.report with
  | some x => simpa using h
  | none =>
    simp only
    rw [IdMap.keys_set_of_get_none m _ _ hg]
    have hn := (IdMap.get_eq_none_iff m s.report).1 hg
    exact List.Nodup.append h (List.nodup_singleton _) (by simpa using hn)

theorem latestStep_get (m : IdMap Summary) (s : Summary) (id : Int) :
    IdMap.get (latestStep m s) id =
      match IdMap.get m id with
      | some x => some x
      | none => if s.report = id then some s else none := by
  unfold latestStep
  by_cases hid : s.report = id
  · subst hid
    cases hg : IdMap.get m s.report with
    | some x => simp [hg]
    | none => simp [IdMap.get_set_self]
  · cases hg : IdMap.get m s.report with
    | some x => cases hg' : IdMap.get m id <;> simp [hg', hid]
    | none =>
      simp only [IdMap.get_set_ne m _ _ s hid]
      cases hg' : IdMap.get m id <;> simp [hid]

theorem foldl_latestStep_keys_nodup (l : List Summary) (m : IdMap Summary)
    (h : (IdMap.keys m).Nodup) : (IdMap.keys (l.foldl latestStep m)).Nodup := by
  induction l generalizing m with
  | nil => simpa using h
  | cons s l ih => exact ih _ (latestStep_keys_nodup m s h)

theorem foldl_latestStep_get (l : List Summary) (m : IdMap Summary) (id : Int) :
    IdMap.get (l.foldl latestStep m) id =
      match IdMap.get m id with
      | some x => some x
      | none => l.find? (fun s => s.report == id) := by
  induction l generalizing m with
  | nil => cases hg : IdMap.get m id <;> simp [hg]
  | cons s l ih =>
    rw [List.foldl_cons, ih, latestStep_get]
    cases hg : IdMap.get m id with
    | some x => rfl
    | none =>
      by_cases hid : s.report = id
      · simp [hid, List.find?_cons]
      · simp [hid, List.find?_cons]

/-- C1: the latest-per-report map built by `fetchReports` has at most one entry
per report id; the entry of an id is the first summary of the list, in the
list's order, whose `report` field is that id; an id has no entry exactly when
no summary of the list carries it. -/
theorem latestByReport_first_seen (summaries : List Summary) :
    (IdMap.keys (latestByReport summaries)).Nodup ∧
    (∀ id : Int, IdMap.get (latestByReport summaries) id =
        summaries.find? (fun s => s.report == id)) ∧
    (∀ id : Int, IdMap.get (latestByReport summaries) id = none ↔
        id ∉ summaries.map Summary.report) := by
  have hget : ∀ id : Int, IdMap.get (latestByReport summaries) id =
      summaries.find? (fun s => s.report == id) := by
    intro id
    unfold latestByReport
    rw [foldl_latestStep_get, IdMap.get_nil]
  refine ⟨foldl_latestStep_keys_nodup summaries [] List.nodup_nil, hget, ?_⟩
  intro id
  rw [hget, List.find?_eq_none]
  simp only [List.mem_map, not_exists, not_and, beq_iff_eq, Bool.not_eq_true]

end Dashboard

/-! ## `split` and the text after the last separator -/

theorem split_cons (sep c : CodeUnit) (cs : JSString) :
    split sep (c :: cs) =
      if c = sep then [] :: split sep cs
      else
        match split sep cs with
        | [] => [[c]]
        | p :: ps => (c :: p) :: ps := rfl

theorem split_ne_nil (sep : CodeUnit) (s : JSString) : split sep s ≠ [] := by
  cases s with
  | nil => simp [split]
  | cons c cs =>
    unfold split
    by_cases h : c = sep
    · simp [h]
    · simp only [h, if_false]
      cases split sep cs <;> simp

theorem split_of_not_mem (sep : CodeUnit) (s : JSString) (h : sep ∉ s) : split sep s = [s] := by
  induction s with
  | nil => rfl
  | cons c cs ih =>
    have hc : ¬ c = sep := fun e => h (by simp [e])
    have hcs : sep ∉ cs := fun e => h (by simp [e])
    unfold split
    simp [hc, ih hcs]

theorem one_lt_length_split (sep : CodeUnit) (s : JSString) (h : sep ∈ s) :
    1 < (split sep s).length := by
  induction s with
  | nil => simp at h
  | cons c cs ih =>
    unfold split
    by_cases hc : c = sep
    · have := split_ne_nil sep cs
      simp only [hc, if_true, List.length_cons]
      have : 0 < (split sep cs).length := List.length_pos.2 this
      omega
    · have hcs : sep ∈ cs := by
        rcases List.mem_cons.1 h with e | e
        · exact absurd e.symm hc
        · exact e
      have := ih hcs
      simp only [hc, if_false]
      cases hs : split sep cs with
      | nil => simp [hs] at this
      | cons p ps => simpa [hs] using this

theorem getLast?_split_cons (sep c : CodeUnit) (cs : JSString) :
    (split sep (c :: cs)).getLast? =
      if sep ∈ cs then (split sep cs).getLast?
      else if c = sep then some cs else some (c :: cs) := by
  by_cases hmem : sep ∈ cs
  · simp only [hmem, if_true]
    have hlen := one_lt_length_split sep cs hmem
    rw [split_cons]
    by_cases hc : c = sep
    · simp only [hc, if_true]
      cases hs : split sep cs with
      | nil => simp [hs] at hlen
      | cons p ps => simp [List.getLast?_cons_cons]
    · simp only [hc, if_false]
      cases hs : split sep cs with
      | nil => simp [hs] at hlen
      | cons p ps =>
        cases ps with
        | nil => simp [hs] at hlen
        | cons q qs => simp [List.getLast?_cons_cons]
  · simp only [hmem, if_false]
    rw [split_cons]
    by_cases hc : c = sep
    · simp [hc, split_of_not_mem sep cs hmem]
    · simp [hc, split_of_not_mem sep cs hmem]

theorem afterLast_cons (sep c : CodeUnit) (cs : JSString) :
    afterLast sep (c :: cs) =
      if sep ∈ cs then afterLast sep cs
      else if c = sep then cs else c :: cs := by
  unfold afterLast
  rw [List.reverse_cons, List.takeWhile_append]
  by_cases hmem : sep ∈ cs
  · have hlt : ¬ (List.takeWhile (fun c => c != sep) cs.reverse).length = cs.reverse.length := by
      intro heq
      have hall : List.takeWhile (fun c => c != sep) cs.reverse = cs.reverse :=
        List.IsPrefix.eq_of_length (List.takeWhile_prefix _) heq
      have := (List.takeWhile_eq_self_iff.1 hall) sep (by simpa using hmem)
      simp at this
    rw [if_neg hlt]
    simp [hmem]
  · have hall : List.takeWhile (fun c => c != sep) cs.reverse = cs.reverse := by
      rw [List.takeWhile_eq_self_iff]
      intro x hx
      have hx' : x ∈ cs := by simpa using hx
      have : x ≠ sep := fun e => hmem (e ▸ hx')
      simpa using this
    rw [hall, if_pos rfl]
    by_cases hc : c = sep
    · simp [hmem, hc, List.takeWhile]
    · have hb : (c != sep) = true := by simpa using hc
      simp [hmem, hc, hb, List.takeWhile]

theorem getLast?_split (sep : CodeUnit) (s : JSString) :
    (split sep s).getLast? = some (afterLast sep s) := by
  induction s with
  | nil => rfl
  | cons c cs ih =>
    rw [getLast?_split_cons, afterLast_cons, ih]
    by_cases hmem : sep ∈ cs
    · simp [hmem]
    · by_cases hc : c = sep <;> simp [hmem, hc]

theorem one_lt_length_split_iff (sep : CodeUnit) (s : JSString) :
    1 < (split sep s).length ↔ sep ∈ s := by
  constructor
  · intro h
    by_contra hn
    rw [split_of_not_mem sep s hn] at h
    simp at h
  · exact one_lt_length_split sep s

namespace Dashboard

theorem filenameOf_eq_lastSegment (r : Report) : filenameOf r = lastSegment r.original_file := by
  unfold filenameOf lastSegment
  cases r.original_file with
  | none => rfl
  | some f =>
    cases f with
    | nil => rfl
    | cons c cs => simp [strTruthy, getLast?_split]

theorem extOf_eq_extensionSpec (toLowerCase : JSString → JSString) (r : Report) :
    extOf toLowerCase (filenameOf r) = extensionSpec toLowerCase r.original_file := by
  unfold extOf extensionSpec
  rw [filenameOf_eq_lastSegment]
  by_cases h : 46 ∈ lastSegment r.original_file
  · have := (one_lt_length_split_iff 46 _).2 h
    simp [h, this, getLast?_split]
  · have : ¬ 1 < (split 46 (lastSegment r.original_file)).length :=
      fun x => h ((one_lt_length_split_iff 46 _).1 x)
    simp [h, this]

end Dashboard

namespace Dashboard

/-! ## The snippet of a card -/

theorem latestByReport_get (summaries : List Summary) (id : Int) :
    IdMap.get (latestByReport summaries) id = summaries.find? (fun s => s.report == id) := by
  unfold latestByReport
  rw [foldl_latestStep_get, IdMap.get_nil]

theorem snippet_mapReport (toLowerCase : JSString → JSString) (latest : IdMap Summary)
    (r : Report) : (mapReport toLowerCase latest r).snippet = snippetOf toLowerCase latest r := rfl

theorem usableSummaryText_eq_none (latest : Option Summary)
    (h : ∀ s, latest = some s → s.summary_text = none ∨ s.summary_text = some []) :
    usableSummaryText latest = none := by
  cases latest with
  | none => rfl
  | some s =>
    rcases h s rfl with e | e
    · simp [usableSummaryText, e]
    · simp [usableSummaryText, e, strTruthy]

/-- C2: when the latest summary of a report's id (the first summary of the list
carrying that id) has non-empty `summary_text`, the card's snippet is that text
with its whitespace runs collapsed to single spaces, trimmed and cut to its
first 180 code units; every report with the same id gets the same snippet,
whatever its `extracted_text`, its `original_file` and the lower-casing used for
the extension. -/
theorem snippet_prefers_summary (toLowerCase : JSString → JSString) (summaries : List Summary)
    (r : Report) (s : Summary) (t : JSString)
    (hlatest : summaries.find? (fun x => x.report == r.id) = some s)
    (htext : s.summary_text = some t) (hne : t ≠ []) :
    (mapReport toLowerCase (latestByReport summaries) r).snippet =
        some ((trim (replaceWhiteSpaceRuns t)).take 180) ∧
    ∀ (toLowerCase' : JSString → JSString) (r' : Report), r'.id = r.id →
      (mapReport toLowerCase' (latestByReport summaries) r').snippet =
        (mapReport toLowerCase (latestByReport summaries) r).snippet := by
  have key : ∀ (f : JSString → JSString) (q : Report), q.id = r.id →
      (mapReport f (latestByReport summaries) q).snippet =
        some ((trim (replaceWhiteSpaceRuns t)).take 180) := by
    intro f q hq
    have htruthy : strTruthy t = true := by
      cases t with
      | nil => exact absurd rfl hne
      | cons c cs => rfl
    rw [snippet_mapReport]
    unfold snippetOf
    rw [latestByReport_get, hq, hlatest]
    simp [usableSummaryText, htext, htruthy, slice0, cleanedOf]
  refine ⟨key toLowerCase r rfl, ?_⟩
  intro f q hq
  rw [key f q hq, key toLowerCase r rfl]

/-- Witness of C2 on the sample summaries: report 1 has an image file name and
extracted text, and its snippet is the cleaned newest summary. -/
theorem snippet_prefers_summary_witness :
    (mapReport asciiToLowerCase (latestByReport sampleSummaries) imageReport).snippet =
        some (js "Patient shows normal vitals.") ∧
    ∀ (toLowerCase' : JSString → JSString) (r' : Report), r'.id = imageReport.id →
      (mapReport toLowerCase' (latestByReport sampleSummaries) r').snippet =
        (mapReport asciiToLowerCase (latestByReport sampleSummaries) imageReport).snippet :=
  snippet_prefers_summary asciiToLowerCase sampleSummaries imageReport
    { report := 1, summary_text := some (js "Patient  shows\nnormal vitals. "), created_at := none }
    (js "Patient  shows\nnormal vitals. ") (by decide) rfl (by decide)

/-- C3: a report whose file extension (the lower-cased text after the last `.`
of the last path segment of `original_file`, empty when there is no `.`) is
outside the allow-list, and whose latest summary is missing or has no
non-empty text, gets the snippet `null`, whatever its `extracted_text`. -/
theorem snippet_null_outside_allow_list (toLowerCase : JSString → JSString)
    (summaries : List Summary) (r : Report)
    (hext : extensionSpec toLowerCase r.original_file ∉
      [js "pdf", js "docx", js "doc", js "txt", js "md", js "rtf", js "html", js "htm"])
    (hnone : ∀ s, summaries.find? (fun x => x.report == r.id) = some s →
      s.summary_text = none ∨ s.summary_text = some []) :
    (mapReport toLowerCase (latestByReport summaries) r).snippet = none := by
  rw [snippet_mapReport]
  unfold snippetOf
  rw [latestByReport_get, usableSummaryText_eq_none _ hnone, extOf_eq_extensionSpec]
  have hc : extensionSpec toLowerCase r.original_file ∉ textLikeExts := hext
  simp [hc]

/-- Witness of C3: `/u/x.png` with extracted text and only a summary of
another report. -/
theorem snippet_null_outside_allow_list_witness :
    (mapReport asciiToLowerCase
      (latestByReport [{ report := 3, summary_text := none, created_at := none }])
      imageReport).snippet = none :=
  snippet_null_outside_allow_list asciiToLowerCase
    [{ report := 3, summary_text := none, created_at := none }] imageReport
    (by decide) (by decide)

/-- C4, as the code has it: for a report with no usable summary, an
allow-listed extension and a non-empty `extracted_text`, the snippet is `null`
exactly when the whole cleaned `extracted_text` holds 40 or more code units
outside 0x20-0x7E, and is otherwise the first 180 code units of the cleaned
text. -/
theorem snippet_gate_whole_text (toLowerCase : JSString → JSString)
    (summaries : List Summary) (r : Report) (e : JSString)
    (hnone : ∀ s, summaries.find? (fun x => x.report == r.id) = some s →
      s.summary_text = none ∨ s.summary_text = some [])
    (hext : extensionSpec toLowerCase r.original_file ∈
      [js "pdf", js "docx", js "doc", js "txt", js "md", js "rtf", js "html", js "htm"])
    (htext : r.extracted_text = some e) (hne : e ≠ []) :
    ((mapReport toLowerCase (latestByReport summaries) r).snippet = none ↔
        40 ≤ nonPrintableCount (trim (replaceWhiteSpaceRuns e))) ∧
    (mapReport toLowerCase (latestByReport summaries) r).snippet =
      if nonPrintableCount (trim (replaceWhiteSpaceRuns e)) < 40
      then some ((trim (replaceWhiteSpaceRuns e)).take 180) else none := by
  have htruthy : optTruthy (some e) = true := by
    cases e with
    | nil => exact absurd rfl hne
    | cons c cs => rfl
  have hc : extensionSpec toLowerCase r.original_file ∈ textLikeExts := hext
  have hval : (mapReport toLowerCase (latestByReport summaries) r).snippet =
      if nonPrintableCount (trim (replaceWhiteSpaceRuns e)) < 40
      then some ((trim (replaceWhiteSpaceRuns e)).take 180) else none := by
    rw [snippet_mapReport]
    unfold snippetOf
    rw [latestByReport_get, usableSummaryText_eq_none _ hnone, extOf_eq_extensionSpec]
    simp [hc, htruthy, htext, slice0, cleanedOf]
  refine ⟨?_, hval⟩
  rw [hval]
  by_cases hlt : nonPrintableCount (trim (replaceWhiteSpaceRuns e)) < 40
  · simp [hlt]
  · simp [hlt]
    omega

/-- Witness of C4's amended statement: `/u/Notes.TXT` with short printable text. -/
theorem snippet_gate_whole_text_witness :
    ((mapReport asciiToLowerCase (latestByReport []) textReport).snippet = none ↔
        40 ≤ nonPrintableCount (trim (replaceWhiteSpaceRuns (js " blood   pressure\n normal ")))) ∧
    (mapReport asciiToLowerCase (latestByReport []) textReport).snippet =
      if nonPrintableCount (trim (replaceWhiteSpaceRuns (js " blood   pressure\n normal "))) < 40
      then some ((trim (replaceWhiteSpaceRuns (js " blood   pressure\n normal "))).take 180)
      else none :=
  snippet_gate_whole_text asciiToLowerCase [] textReport (js " blood   pressure\n normal ")
    (by decide) (by decide) rfl (by decide)

set_option maxRecDepth 100000 in
/-- C4 as stated fails: the report has no summary, the allow-listed extension
`txt` and non-empty extracted text whose cleaned 180-unit slice holds no code
unit outside 0x20-0x7E, yet its snippet is `null` and not that slice, because
40 such code units follow the slice. -/
theorem snippet_gate_not_slice_only :
    extensionSpec asciiToLowerCase accentedTailReport.original_file = js "txt" ∧
    optTruthy accentedTailReport.extracted_text = true ∧
    nonPrintableCount
      ((trim (replaceWhiteSpaceRuns (accentedTailReport.extracted_text.getD []))).take 180) = 0 ∧
    (mapReport asciiToLowerCase (latestByReport []) accentedTailReport).snippet = none := by
  decide

end Dashboard

/-! ## Error normalisation of the two forms -/

theorem foldl_join_eq (sep : JSString) (xs : List JSString) (acc : JSString) :
    xs.foldl (fun a y => a ++ sep ++ y) acc = acc ++ (xs.map (fun y => sep ++ y)).flatten := by
  induction xs generalizing acc with
  | nil => simp
  | cons x xs ih =>
    rw [List.foldl_cons, ih]
    simp [List.append_assoc]

theorem intercalate_cons_eq (sep x : JSString) (xs : List JSString) :
    sep.intercalate (x :: xs) = x ++ (xs.map (fun y => sep ++ y)).flatten := by
  induction xs generalizing x with
  | nil => simp [List.intercalate]
  | cons y ys ih =>
    have h := ih y
    simp only [List.intercalate, List.intersperse_cons_cons, List.flatten_cons, List.map_cons]
      at h ⊢
    rw [h]
    simp [List.append_assoc]

theorem joinStrings_eq_intercalate (sep : JSString) (xs : List JSString) :
    joinStrings sep xs = sep.intercalate xs := by
  cases xs with
  | nil => simp [joinStrings, List.intercalate]
  | cons x xs => rw [joinStrings, foldl_join_eq, intercalate_cons_eq]

theorem joinValues_eq_intercalate (sep : JSString) (xs : List JSValue) :
    JSValue.joinValues sep xs = sep.intercalate (xs.map JSValue.elementString) := by
  induction xs with
  | nil => simp [JSValue.joinValues, List.intercalate]
  | cons x xs ih =>
    cases xs with
    | nil => simp [JSValue.joinValues, List.intercalate]
    | cons y ys =>
      rw [JSValue.joinValues, ih, List.map_cons, List.map_cons, intercalate_cons_eq,
        intercalate_cons_eq]
      simp [List.append_assoc]

theorem messageOf_eq_specMessage (v : JSValue) : messageOf v = specMessage v := by
  cases v <;> simp [messageOf, specMessage, joinValues_eq_intercalate]

theorem signupError_obj (entries : List (JSString × JSValue)) :
    Signup.errorOf (some (JSValue.obj entries)) = specKeyedLines entries := by
  simp [Signup.errorOf, JSValue.truthy, JSValue.objectEntries, joinStrings_eq_intercalate,
    specKeyedLines, messageOf_eq_specMessage]

theorem loginError_obj (entries : List (JSString × JSValue)) :
    Login.errorOf (some (JSValue.obj entries)) =
      match (JSValue.obj entries).detail with
      | some v => if v.truthy then v else JSValue.str (specBareLines entries)
      | none => JSValue.str (specBareLines entries) := by
  simp [Login.errorOf, JSValue.truthy, JSValue.objectEntries, joinStrings_eq_intercalate,
    specBareLines, messageOf_eq_specMessage]

theorem loginError_object (d : JSValue) (hobj : d.isObject = true) :
    Login.errorOf (some d) =
      match d.detail with
      | some v => if v.truthy then v else JSValue.str (specBareLines d.objectEntries)
      | none => JSValue.str (specBareLines d.objectEntries) := by
  cases d with
  | obj entries => exact loginError_obj entries
  | arr xs =>
    simp [Login.errorOf, JSValue.truthy, JSValue.detail, joinStrings_eq_intercalate,
      specBareLines, messageOf_eq_specMessage]
  | null => simp [JSValue.isObject] at hobj
  | bool b => simp [JSValue.isObject] at hobj
  | num n => simp [JSValue.isObject] at hobj
  | str t => simp [JSValue.isObject] at hobj

theorem signupError_object (d : JSValue) (hobj : d.isObject = true) :
    Signup.errorOf (some d) = specKeyedLines d.objectEntries := by
  cases d with
  | obj entries => exact signupError_obj entries
  | arr xs =>
    simp [Signup.errorOf, JSValue.truthy, joinStrings_eq_intercalate, specKeyedLines,
      messageOf_eq_specMessage]
  | null => simp [JSValue.isObject] at hobj
  | bool b => simp [JSValue.isObject] at hobj
  | num n => simp [JSValue.isObject] at hobj
  | str t => simp [JSValue.isObject] at hobj

theorem errorOf_agree_of_not_object (d : JSValue) (ht : d.truthy = true)
    (hobj : d.isObject = false) : Login.errorOf (some d) = JSValue.str (Signup.errorOf (some d)) := by
  cases d with
  | obj entries => simp [JSValue.isObject] at hobj
  | arr xs => simp [JSValue.isObject] at hobj
  | null => simp [JSValue.truthy] at ht
  | bool b => simp [Login.errorOf, Signup.errorOf, ht]
  | num n => simp [Login.errorOf, Signup.errorOf, ht]
  | str t => simp [Login.errorOf, Signup.errorOf, ht]

theorem errorOf_fallback (data : Option JSValue) (h : JSValue.optTruthy data = false) :
    Login.errorOf data = JSValue.str Login.fallbackMessage ∧
    Signup.errorOf data = Signup.fallbackMessage := by
  cases data with
  | none => exact ⟨rfl, rfl⟩
  | some d =>
    have hd : d.truthy = false := h
    simp [Login.errorOf, Signup.errorOf, hd]

theorem errorOf_string (t : JSString) (ht : t ≠ []) :
    Login.errorOf (some (JSValue.str t)) = JSValue.str t ∧
    Signup.errorOf (some (JSValue.str t)) = t := by
  have htruthy : (JSValue.str t).truthy = true := by
    cases t with
    | nil => exact absurd rfl ht
    | cons c cs => rfl
  simp [Login.errorOf, Signup.errorOf, htruthy]

theorem errorOf_primitive (d : JSValue) (ht : d.truthy = true) (hobj : d.isObject = false)
    (hstr : ∀ t, d ≠ JSValue.str t) :
    Login.errorOf (some d) = JSValue.str d.stringify ∧ Signup.errorOf (some d) = d.stringify := by
  cases d with
  | obj entries => simp [JSValue.isObject] at hobj
  | arr xs => simp [JSValue.isObject] at hobj
  | null => simp [JSValue.truthy] at ht
  | str t => exact absurd rfl (hstr t)
  | bool b =>
    simp only [Login.errorOf, Signup.errorOf, ht]
    exact ⟨rfl, rfl⟩
  | num n =>
    simp only [Login.errorOf, Signup.errorOf, ht]
    exact ⟨rfl, rfl⟩

/-- C5, as the code has it.  With no error body, or a falsy one, each form sets
its own fixed fallback message.  A non-empty string body is set verbatim by
both forms.  A truthy number or boolean body is set as its `JSON.stringify`
text by both forms.  So on every truthy body that is not a mapping (or array)
the two forms set the same text.  On a mapping (or an array) they follow
different policies: Login sets `detail` when that field is truthy and otherwise
the messages without their keys joined with " | ", while Signup sets one
`<key>: <message>` line per key joined with " | " and gives `detail` no
preference. -/
theorem error_policies_compared (s : Login.State) (s' : Signup.State) :
    (∀ data : Option JSValue, JSValue.optTruthy data = false →
      (Login.handleSubmit s (CallResult.rejected data)).error =
        JSValue.str (js "Login failed. Check credentials.") ∧
      (Signup.handleSubmit s' (CallResult.rejected data)).error =
        js "Signup failed. Please check your input or try again.") ∧
    (∀ t : JSString, t ≠ [] →
      (Login.handleSubmit s (CallResult.rejected (some (JSValue.str t)))).error =
        JSValue.str t ∧
      (Signup.handleSubmit s' (CallResult.rejected (some (JSValue.str t)))).error = t) ∧
    (∀ d : JSValue, d.truthy = true → d.isObject = false → (∀ t, d ≠ JSValue.str t) →
      (Login.handleSubmit s (CallResult.rejected (some d))).error = JSValue.str d.stringify ∧
      (Signup.handleSubmit s' (CallResult.rejected (some d))).error = d.stringify) ∧
    (∀ d : JSValue, d.truthy = true → d.isObject = false →
      (Login.handleSubmit s (CallResult.rejected (some d))).error =
        JSValue.str (Signup.handleSubmit s' (CallResult.rejected (some d))).error) ∧
    (∀ d : JSValue, d.isObject = true →
      (Login.handleSubmit s (CallResult.rejected (some d))).error =
        (match d.detail with
         | some v => if v.truthy then v else JSValue.str (specBareLines d.objectEntries)
         | none => JSValue.str (specBareLines d.objectEntries)) ∧
      (Signup.handleSubmit s' (CallResult.rejected (some d))).error =
        specKeyedLines d.objectEntries) := by
  refine ⟨fun data h => ?_, fun t ht => ?_, fun d ht hobj hstr => ?_, fun d ht hobj => ?_,
    fun d hobj => ⟨?_, ?_⟩⟩
  · exact errorOf_fallback data h
  · exact errorOf_string t ht
  · exact errorOf_primitive d ht hobj hstr
  · exact errorOf_agree_of_not_object d ht hobj
  · exact loginError_object d hobj
  · exact signupError_object d hobj

/-- Witness of C5's amended statement: no response body, the plain-text body
"Bad Gateway", the number 500, and the mapping of the Signup scenario. -/
theorem error_policies_compared_witness :
    ((Login.handleSubmit Login.idle (CallResult.rejected none)).error =
        JSValue.str (js "Login failed. Check credentials.") ∧
      (Signup.handleSubmit Signup.idle (CallResult.rejected none)).error =
        js "Signup failed. Please check your input or try again.") ∧
    ((Login.handleSubmit Login.idle
        (CallResult.rejected (some (JSValue.str (js "Bad Gateway"))))).error =
        JSValue.str (js "Bad Gateway") ∧
      (Signup.handleSubmit Signup.idle
        (CallResult.rejected (some (JSValue.str (js "Bad Gateway"))))).error =
        js "Bad Gateway") ∧
    ((Login.handleSubmit Login.idle (CallResult.rejected (some (JSValue.num 500)))).error =
        JSValue.str (js "500") ∧
      (Signup.handleSubmit Signup.idle (CallResult.rejected (some (JSValue.num 500)))).error =
        js "500") ∧
    ((Login.handleSubmit Login.idle (CallResult.rejected (some emailErrorBody))).error =
        JSValue.str (js "Enter a valid email address.") ∧
      (Signup.handleSubmit Signup.idle (CallResult.rejected (some emailErrorBody))).error =
        js "email: Enter a valid email address.") :=
  ⟨(error_policies_compared Login.idle Signup.idle).1 none rfl,
   (error_policies_compared Login.idle Signup.idle).2.1 (js "Bad Gateway") (by decide),
   (error_policies_compared Login.idle Signup.idle).2.2.1 (JSValue.num 500) rfl rfl
     (fun _ h => JSValue.noConfusion h),
   (error_policies_compared Login.idle Signup.idle).2.2.2.2 emailErrorBody rfl⟩

/-- C5 as stated fails: for the body `{"email": ["Enter a valid email address."]}`
Login sets the message alone and Signup sets it behind its key. -/
theorem forms_differ_on_mapping :
    (Login.handleSubmit Login.idle (CallResult.rejected (some emailErrorBody))).error =
      JSValue.str (js "Enter a valid email address.") ∧
    (Signup.handleSubmit Signup.idle (CallResult.rejected (some emailErrorBody))).error =
      js "email: Enter a valid email address." ∧
    (Login.handleSubmit Login.idle (CallResult.rejected (some emailErrorBody))).error ≠
      JSValue.str (Signup.handleSubmit Signup.idle (CallResult.rejected (some emailErrorBody))).error := by
  refine ⟨rfl, rfl, ?_⟩
  intro h
  have h1 : (Login.handleSubmit Login.idle (CallResult.rejected (some emailErrorBody))).error =
      JSValue.str (js "Enter a valid email address.") := rfl
  have h2 : (Signup.handleSubmit Signup.idle (CallResult.rejected (some emailErrorBody))).error =
      js "email: Enter a valid email address." := rfl
  rw [h1, h2] at h
  have h3 := JSValue.str.inj h
  revert h3
  decide

/-- C6, as the code has it: when the error body of a failed Login is a mapping
whose `detail` field is present and truthy (a non-empty string, for one), the
error set by Login is exactly the value of `detail`, whatever other keys the
body has. -/
theorem Login.error_is_truthy_detail (s : Login.State) (entries : List (JSString × JSValue))
    (v : JSValue) (hd : (JSValue.obj entries).detail = some v) (hv : v.truthy = true) :
    (Login.handleSubmit s (CallResult.rejected (some (JSValue.obj entries)))).error = v := by
  show Login.errorOf (some (JSValue.obj entries)) = v
  rw [loginError_obj, hd]
  simp [hv]

/-- Witness of C6's amended statement: the Login scenario of the specification. -/
theorem Login.error_is_truthy_detail_witness :
    (Login.handleSubmit Login.idle (CallResult.rejected (some detailErrorBody))).error =
      JSValue.str (js "No active account found with the given credentials") :=
  Login.error_is_truthy_detail Login.idle
    [(js "detail", JSValue.str (js "No active account found with the given credentials"))]
    (JSValue.str (js "No active account found with the given credentials")) rfl rfl

/-- C6 as stated fails: the mapping `{"detail": "", "non_field_errors": ["bad"]}`
has a `detail` field, whose value is the empty string, and Login sets the
joined messages " | bad" instead of that value. -/
theorem Login.empty_detail_not_shown :
    emptyDetailBody.detail = some (JSValue.str []) ∧
    (Login.handleSubmit Login.idle (CallResult.rejected (some emptyDetailBody))).error =
      JSValue.str (js " | bad") ∧
    (Login.handleSubmit Login.idle (CallResult.rejected (some emptyDetailBody))).error ≠
      JSValue.str [] := by
  refine ⟨rfl, rfl, ?_⟩
  intro h
  have h1 : (Login.handleSubmit Login.idle (CallResult.rejected (some emptyDetailBody))).error =
      JSValue.str (js " | bad") := rfl
  rw [h1] at h
  have h3 := JSValue.str.inj h
  revert h3
  decide

/-- C7: when the error body of a failed Signup is a key-to-messages mapping, the
error text set by Signup is the lines `<key>: <message>` for the body's keys in
their order joined with " | ", an array of messages being joined with single
spaces and any other value converted to a string; the body
`{"email": ["Enter a valid email address."]}` gives
"email: Enter a valid email address.". -/
theorem Signup.error_of_mapping (s : Signup.State) (entries : List (JSString × JSValue)) :
    (Signup.handleSubmit s (CallResult.rejected (some (JSValue.obj entries)))).error =
      (js " | ").intercalate (entries.map (fun e => e.1 ++ js ": " ++ specMessage e.2)) ∧
    (Signup.handleSubmit s (CallResult.rejected (some emailErrorBody))).error =
      js "email: Enter a valid email address." :=
  ⟨signupError_obj entries, rfl⟩

namespace Dashboard

/-! ## Optimistic delete with undo -/

theorem clearTimeout_append_fresh (timers : List Timer) (t : Timer)
    (hfresh : ∀ x ∈ timers, x.handle < t.handle) :
    clearTimeout (timers ++ [t]) t.handle = timers := by
  unfold clearTimeout
  rw [List.filter_append]
  have h1 : timers.filter (fun x => !(x.handle == t.handle)) = timers := by
    rw [List.filter_eq_self]
    intro x hx
    have := hfresh x hx
    have hne : x.handle ≠ t.handle := by omega
    simpa using hne
  rw [h1]
  simp

theorem find?_append_fresh (timers : List Timer) (t : Timer)
    (hfresh : ∀ x ∈ timers, x.handle < t.handle) :
    (timers ++ [t]).find? (fun x => x.handle == t.handle) = some t := by
  rw [List.find?_append]
  have h1 : timers.find? (fun x => x.handle == t.handle) = none := by
    rw [List.find?_eq_none]
    intro x hx
    have := hfresh x hx
    have hne : x.handle ≠ t.handle := by omega
    simpa using hne
  rw [h1]
  simp

theorem handleRemove_authenticated (s : DashState) (tok : JSString) (reportId : Int) (c : Card)
    (htok : strTruthy tok = true)
    (hfind : s.reports.find? (fun r => r.id == reportId) = some c) :
    handleRemove s true (some tok) reportId =
      some { s with
        reports := s.reports.filter (fun r => !(r.id == reportId))
        timers := s.timers ++ [{ handle := s.nextTimer, token := tok,
                                 reportId := reportId, reportObj := c }]
        nextTimer := s.nextTimer + 1
        pendingDeletes := s.pendingDeletes.set reportId { report := c, timer := s.nextTimer }
        toasts := s.toasts ++ [Toast.undoable s.nextToast reportId c]
        nextToast := s.nextToast + 1
        loading := false } := by
  simp [handleRemove, htok, hfind]

theorem timerFire_timers_subset (s : DashState) (handle : Nat) (ok : Bool) :
    ∀ t ∈ (timerFire s handle ok).timers, t ∈ s.timers := by
  intro t ht
  unfold timerFire at ht
  cases hf : s.timers.find? (fun t => t.handle == handle) with
  | none => simpa [hf] using ht
  | some x =>
    simp only [hf, clearTimeout] at ht
    exact (List.mem_filter.1 ht).1

theorem timerFire_calls_filter (s : DashState) (handle : Nat) (ok : Bool) (reportId : Int)
    (hno : ∀ t ∈ s.timers, t.reportId ≠ reportId) :
    (timerFire s handle ok).deleteCalls.filter (fun call => call.2 == reportId) =
      s.deleteCalls.filter (fun call => call.2 == reportId) := by
  unfold timerFire
  cases hf : s.timers.find? (fun t => t.handle == handle) with
  | none => rfl
  | some x =>
    have hx : x ∈ s.timers := List.mem_of_find?_eq_some hf
    have hne := hno x hx
    simp [List.filter_append, hne]

theorem runTimers_calls_filter (fires : List (Nat × Bool)) (s : DashState) (reportId : Int)
    (hno : ∀ t ∈ s.timers, t.reportId ≠ reportId) :
    (runTimers s fires).deleteCalls.filter (fun call => call.2 == reportId) =
      s.deleteCalls.filter (fun call => call.2 == reportId) := by
  induction fires generalizing s with
  | nil => rfl
  | cons f fires ih =>
    have hstep : runTimers s (f :: fires) = runTimers (timerFire s f.1 f.2) fires := rfl
    rw [hstep, ih (timerFire s f.1 f.2)
      (fun t ht => hno t (timerFire_timers_subset s f.1 f.2 t ht))]
    exact timerFire_calls_filter s f.1 f.2 reportId hno

/-- C8: an authenticated, confirmed removal of the id of a visible card followed
by undo, before the scheduled timeout elapses, leaves the removed card (the
first card of that id) at the head of the list followed by all cards of other
ids in their original order; the pending-delete entry of the id is gone and the
timeout it held is cancelled, the scheduled timeouts being those from before
the removal; and however the remaining timeouts elapse afterwards,
`deleteReport` receives no call for that id beyond those made before the
removal. -/
theorem undo_restores_card (s : DashState) (tok : JSString) (reportId : Int) (c : Card)
    (htok : strTruthy tok = true)
    (hfind : s.reports.find? (fun r => r.id == reportId) = some c)
    (hfresh : s.timersFresh)
    (hno : ∀ t ∈ s.timers, t.reportId ≠ reportId) :
    ∃ s1 : DashState,
      handleRemove s true (some tok) reportId = some s1 ∧
      Toast.undoable s.nextToast reportId c ∈ s1.toasts ∧
      IdMap.get s1.pendingDeletes reportId = some { report := c, timer := s.nextTimer } ∧
      (undo s1 reportId c s.nextToast).reports =
        c :: s.reports.filter (fun r => !(r.id == reportId)) ∧
      IdMap.get (undo s1 reportId c s.nextToast).pendingDeletes reportId = none ∧
      (undo s1 reportId c s.nextToast).timers = s.timers ∧
      (∀ t ∈ (undo s1 reportId c s.nextToast).timers, t.handle ≠ s.nextTimer) ∧
      (undo s1 reportId c s.nextToast).deleteCalls = s.deleteCalls ∧
      ∀ fires : List (Nat × Bool),
        (runTimers (undo s1 reportId c s.nextToast) fires).deleteCalls.filter
            (fun call => call.2 == reportId) =
          s.deleteCalls.filter (fun call => call.2 == reportId) := by
  refine ⟨_, handleRemove_authenticated s tok reportId c htok hfind, ?_, ?_, ?_, ?_, ?_, ?_, ?_, ?_⟩
  · simp
  · exact IdMap.get_set_self _ _ _
  · rfl
  · exact IdMap.get_delete_self _ _
  · simp only [undo, IdMap.get_set_self]
    exact clearTimeout_append_fresh s.timers
      { handle := s.nextTimer, token := tok, reportId := reportId, reportObj := c } hfresh
  · intro t ht
    simp only [undo, IdMap.get_set_self] at ht
    rw [clearTimeout_append_fresh s.timers
      { handle := s.nextTimer, token := tok, reportId := reportId, reportObj := c } hfresh] at ht
    have := hfresh t ht
    omega
  · rfl
  · intro fires
    rw [runTimers_calls_filter]
    · rfl
    · intro t ht
      simp only [undo, IdMap.get_set_self] at ht
      rw [clearTimeout_append_fresh s.timers
        { handle := s.nextTimer, token := tok, reportId := reportId, reportObj := c } hfresh] at ht
      exact hno t ht

/-- Witness of C8: on the two cards 8 and 7, removing 7 and undoing gives the
list 7, 8 and leaves no timeout scheduled. -/
theorem undo_restores_card_witness :
    ∃ s1 : DashState,
      handleRemove twoCards true (some (js "t")) 7 = some s1 ∧
      (undo s1 7 card7 1).reports = [card7, card8] ∧
      (undo s1 7 card7 1).timers = [] ∧
      (undo s1 7 card7 1).deleteCalls = [] := by
  obtain ⟨s1, h1, _, _, h4, _, h6, _, h8, _⟩ :=
    undo_restores_card twoCards (js "t") 7 card7 rfl rfl
      (fun t ht => absurd ht (List.not_mem_nil t)) (fun t ht => absurd ht (List.not_mem_nil t))
  exact ⟨s1, h1, h4, h6, h8⟩

/-- C9: after an authenticated, confirmed removal of the id of a visible card,
when the scheduled timeout elapses without undo, `deleteReport(token, id)` is
called; on success the notification "Report deleted" is shown and the list
stays the one without the cards of that id; on failure the notification
"Failed to delete on server" is shown and the captured card is put back at the
head of the list; in both cases the pending-delete entry of the id is removed
and the timeout is no longer scheduled. -/
theorem timer_fires_delete (s : DashState) (tok : JSString) (reportId : Int) (c : Card)
    (ok : Bool)
    (htok : strTruthy tok = true)
    (hfind : s.reports.find? (fun r => r.id == reportId) = some c)
    (hfresh : s.timersFresh) :
    ∃ s1 : DashState,
      handleRemove s true (some tok) reportId = some s1 ∧
      (timerFire s1 s.nextTimer ok).deleteCalls = s.deleteCalls ++ [(tok, reportId)] ∧
      (timerFire s1 s.nextTimer ok).toasts =
        s1.toasts ++ [if ok then Toast.success (js "Report deleted")
                     else Toast.error (js "Failed to delete on server")] ∧
      (timerFire s1 s.nextTimer ok).reports =
        (if ok then s.reports.filter (fun r => !(r.id == reportId))
         else c :: s.reports.filter (fun r => !(r.id == reportId))) ∧
      (∀ r ∈ (timerFire s1 s.nextTimer true).reports, r.id ≠ reportId) ∧
      IdMap.get (timerFire s1 s.nextTimer ok).pendingDeletes reportId = none ∧
      (timerFire s1 s.nextTimer ok).timers = s.timers := by
  have hf := find?_append_fresh s.timers
    { handle := s.nextTimer, token := tok, reportId := reportId, reportObj := c } hfresh
  have hc := clearTimeout_append_fresh s.timers
    { handle := s.nextTimer, token := tok, reportId := reportId, reportObj := c } hfresh
  simp only at hf hc
  refine ⟨_, handleRemove_authenticated s tok reportId c htok hfind, ?_, ?_, ?_, ?_, ?_, ?_⟩
  · simp only [timerFire, hf]
  · simp only [timerFire, hf]
  · simp only [timerFire, hf]
  · intro r hr
    simp only [timerFire, hf, if_true] at hr
    have := (List.mem_filter.1 hr).2
    simpa using this
  · simp only [timerFire, hf]
    exact IdMap.get_delete_self _ _
  · simp only [timerFire, hf, hc]

/-- Witness of C9: on the two cards 8 and 7, removing 7 and letting the timeout
elapse with a successful delete calls `deleteReport("t", 7)` and leaves card 8. -/
theorem timer_fires_delete_witness :
    ∃ s1 : DashState,
      handleRemove twoCards true (some (js "t")) 7 = some s1 ∧
      (timerFire s1 1 true).deleteCalls = [(js "t", 7)] ∧
      (timerFire s1 1 true).reports = [card8] := by
  obtain ⟨s1, h1, h2, _, h4, _⟩ :=
    timer_fires_delete twoCards (js "t") 7 card7 true rfl rfl
      (fun t ht => absurd ht (List.not_mem_nil t))
  exact ⟨s1, h1, h2, h4⟩

/-! ## Failure of the reports call -/

/-- C10, what the code does: on an authenticated mount whose `listReports` call
fails, the `error` state holds the fixed message and the grid is not rendered,
but the rendered view consists of the heading and "No reports found." and the
message is not among its texts. -/
theorem load_failure_not_rendered (toLowerCase : JSString → JSString) (c : CodeUnit)
    (cs : JSString) (sres : Response (List Summary)) :
    (fetchReports toLowerCase (some (c :: cs)) Response.rejected sres DashState.initial).error =
      some (js "Could not load reports. Are you signed in?") ∧
    renderBody (some (c :: cs))
      (fetchReports toLowerCase (some (c :: cs)) Response.rejected sres DashState.initial) =
      Body.noReports ∧
    renderTexts (some (c :: cs))
      (fetchReports toLowerCase (some (c :: cs)) Response.rejected sres DashState.initial) =
      [js "Your Uploaded Reports", js "No reports found."] ∧
    js "Could not load reports. Are you signed in?" ∉
      renderTexts (some (c :: cs))
        (fetchReports toLowerCase (some (c :: cs)) Response.rejected sres DashState.initial) := by
  have h3 : renderTexts (some (c :: cs))
      (fetchReports toLowerCase (some (c :: cs)) Response.rejected sres DashState.initial) =
      [js "Your Uploaded Reports", js "No reports found."] := rfl
  refine ⟨rfl, rfl, h3, ?_⟩
  rw [h3]
  decide

end Dashboard

namespace Upload

/-! ## Upload and summarize -/

theorem optTruthy_of_firstTruthy (l : List (Option JSValue)) (v : JSValue)
    (h : firstTruthy l = some v) : v.truthy = true := by
  induction l with
  | nil => simp [firstTruthy] at h
  | cons a rest ih =>
    unfold firstTruthy at h
    by_cases ha : JSValue.optTruthy a = true
    · rw [if_pos ha] at h
      rw [h] at ha
      exact ha
    · rw [if_neg ha] at h
      exact ih h

theorem reportIdOf_of_firstTruthy_some (report id : JSValue)
    (h : firstTruthy [report.prop (js "id"), report.prop (js "pk")] = some id) :
    reportIdOf report = some id := by
  unfold reportIdOf JSValue.orElse
  by_cases ha : JSValue.optTruthy (report.prop (js "id")) = true
  · simpa [firstTruthy, ha] using h
  · by_cases hb : JSValue.optTruthy (report.prop (js "pk")) = true
    · simpa [firstTruthy, ha, hb] using h
    · simp [firstTruthy, ha, hb] at h

theorem reportIdOf_of_firstTruthy_none (report : JSValue)
    (h : firstTruthy [report.prop (js "id"), report.prop (js "pk")] = none) :
    JSValue.optTruthy (reportIdOf report) = false := by
  unfold reportIdOf JSValue.orElse
  by_cases ha : JSValue.optTruthy (report.prop (js "id")) = true
  · simp [firstTruthy, ha] at h
    rw [h] at ha
    simp [JSValue.optTruthy] at ha
  · by_cases hb : JSValue.optTruthy (report.prop (js "pk")) = true
    · simp [firstTruthy, ha, hb] at h
      rw [h] at hb
      simp [JSValue.optTruthy] at hb
    · simpa [ha] using hb

theorem orElse_chain_eq (a b : Option JSValue) (d : JSValue) :
    (match JSValue.orElse a (JSValue.orElse b b) with
      | some v => if v.truthy then v else d
      | none => d) = (firstTruthy [a, b]).getD d := by
  cases a with
  | none =>
    cases b with
    | none => simp [JSValue.orElse, firstTruthy, JSValue.optTruthy]
    | some w => cases hw : w.truthy <;> simp [JSValue.orElse, firstTruthy, JSValue.optTruthy, hw]
  | some v =>
    cases hv : v.truthy
    · cases b with
      | none => simp [JSValue.orElse, firstTruthy, JSValue.optTruthy, hv]
      | some w =>
        cases hw : w.truthy <;> simp [JSValue.orElse, firstTruthy, JSValue.optTruthy, hv, hw]
    · simp [JSValue.orElse, firstTruthy, JSValue.optTruthy, hv]

theorem summaryTextOf_eq (data : JSValue) :
    summaryTextOf data =
      (firstTruthy [data.prop (js "summary"), data.prop (js "summary_text")]).getD
        (JSValue.str data.stringify) :=
  orElse_chain_eq _ _ _

theorem handleUpload_resolved (s : State) (file : File) (tok : JSString) (report : JSValue)
    (sumRes : CallResult JSValue) (hfile : s.file = some file) (htok : strTruthy tok = true)
    (hreport : report ≠ JSValue.null) :
    handleUpload s (some tok) (CallResult.resolved report) sumRes =
      match reportIdOf report with
      | none =>
        finished
          { s with
            summary := JSValue.str noIdMessage
            loading := true
            setLoadingCalls := s.setLoadingCalls ++ [true]
            uploadCalls := s.uploadCalls ++ [(tok, file)]
            notices := s.notices ++ [Notice.success (js "File uploaded successfully!")]
            file := none }
      | some id =>
        if id.truthy then
          match sumRes with
          | CallResult.rejected _ =>
            failed
              { s with
                summary := JSValue.str []
                loading := true
                setLoadingCalls := s.setLoadingCalls ++ [true]
                uploadCalls := s.uploadCalls ++ [(tok, file)]
                notices := s.notices ++ [Notice.success (js "File uploaded successfully!")]
                file := none
                summaryCalls := s.summaryCalls ++ [(tok, id)] }
          | CallResult.resolved data =>
            finished
              { s with
                summary := summaryTextOf data
                loading := true
                setLoadingCalls := s.setLoadingCalls ++ [true]
                uploadCalls := s.uploadCalls ++ [(tok, file)]
                notices := s.notices ++ [Notice.success (js "File uploaded successfully!")]
                file := none
                summaryCalls := s.summaryCalls ++ [(tok, id)] }
        else
          finished
            { s with
              summary := JSValue.str noIdMessage
              loading := true
              setLoadingCalls := s.setLoadingCalls ++ [true]
              uploadCalls := s.uploadCalls ++ [(tok, file)]
              notices := s.notices ++ [Notice.success (js "File uploaded successfully!")]
              file := none } := by
  have hopt : MedRep.optTruthy (some tok) = true := htok
  cases report with
  | null => exact absurd rfl hreport
  | bool b => simp only [handleUpload, hfile, hopt]; rfl
  | num n => simp only [handleUpload, hfile, hopt]; rfl
  | str t => simp only [handleUpload, hfile, hopt]; rfl
  | arr xs => simp only [handleUpload, hfile, hopt]; rfl
  | obj entries =>
    simp only [handleUpload, hfile, hopt]
    cases reportIdOf (JSValue.obj entries) with
    | none => rfl
    | some id =>
      cases id.truthy
      · rfl
      · cases sumRes <;> rfl

/-- C11, as the code has it: after a successful upload whose response body is
not `null`, the report id is the body's `id` when that is truthy and otherwise
its `pk` when that is truthy; with such an id `createSummary(token, id)` is
called, and when it resolves the displayed summary is the response's `summary`
if truthy, otherwise its `summary_text` if truthy (first truthy wins),
otherwise the `JSON.stringify` text of the body; without such an id
`createSummary` is not called and the displayed text is the fixed message. -/
theorem upload_then_summarize (s : State) (file : File) (tok : JSString)
    (report data : JSValue) (hfile : s.file = some file) (htok : strTruthy tok = true)
    (hreport : report ≠ JSValue.null) :
    (∀ id : JSValue, firstTruthy [report.prop (js "id"), report.prop (js "pk")] = some id →
      (handleUpload s (some tok) (CallResult.resolved report)
          (CallResult.resolved data)).summaryCalls = s.summaryCalls ++ [(tok, id)] ∧
      (handleUpload s (some tok) (CallResult.resolved report) (CallResult.resolved data)).summary =
        (firstTruthy [data.prop (js "summary"), data.prop (js "summary_text")]).getD
          (JSValue.str data.stringify)) ∧
    (firstTruthy [report.prop (js "id"), report.prop (js "pk")] = none →
      (handleUpload s (some tok) (CallResult.resolved report)
          (CallResult.resolved data)).summaryCalls = s.summaryCalls ∧
      (handleUpload s (some tok) (CallResult.resolved report) (CallResult.resolved data)).summary =
        JSValue.str (js "Uploaded but could not determine report id to summarize.")) := by
  rw [handleUpload_resolved s file tok report _ hfile htok hreport]
  constructor
  · intro id hid
    rw [reportIdOf_of_firstTruthy_some report id hid]
    simp only [optTruthy_of_firstTruthy _ id hid, if_true]
    exact ⟨rfl, summaryTextOf_eq data⟩
  · intro hnone
    have h := reportIdOf_of_firstTruthy_none report hnone
    cases hr : reportIdOf report with
    | none => exact ⟨rfl, rfl⟩
    | some id =>
      have hid : id.truthy = false := by simpa [hr, JSValue.optTruthy] using h
      simp only [hid]
      exact ⟨rfl, rfl⟩

/-- Witness of C11's amended statement, the Upload scenario of the
specification: upload returns `{id: 42}` and summarize returns
`{summary_text: "Patient shows normal vitals."}`. -/
theorem upload_then_summarize_witness :
    (handleUpload chosen (some (js "t")) (CallResult.resolved created42)
        (CallResult.resolved vitalsSummary)).summaryCalls = [(js "t", JSValue.num 42)] ∧
    (handleUpload chosen (some (js "t")) (CallResult.resolved created42)
        (CallResult.resolved vitalsSummary)).summary =
      JSValue.str (js "Patient shows normal vitals.") :=
  (upload_then_summarize chosen { name := js "scan.pdf" } (js "t") created42 vitalsSummary
    rfl rfl (fun h => JSValue.noConfusion h)).1 (JSValue.num 42) rfl

/-- C11 as stated fails twice.  The summarize response
`{summary: "", summary_text: "Patient shows normal vitals."}` has a non-null
`summary`, yet the displayed text is the `summary_text`.  The upload response
`{id: 0, pk: 5}` has an `id`, yet `createSummary` is called with the `pk`. -/
theorem first_non_null_does_not_win :
    emptySummaryBody.prop (js "summary") = some (JSValue.str []) ∧
    (handleUpload chosen (some (js "t")) (CallResult.resolved created42)
        (CallResult.resolved emptySummaryBody)).summary =
      JSValue.str (js "Patient shows normal vitals.") ∧
    (handleUpload chosen (some (js "t")) (CallResult.resolved created42)
        (CallResult.resolved emptySummaryBody)).summary ≠ JSValue.str [] ∧
    (JSValue.obj [(js "id", JSValue.num 0), (js "pk", JSValue.num 5)]).prop (js "id") =
      some (JSValue.num 0) ∧
    (handleUpload chosen (some (js "t"))
        (CallResult.resolved (JSValue.obj [(js "id", JSValue.num 0), (js "pk", JSValue.num 5)]))
        (CallResult.resolved vitalsSummary)).summaryCalls = [(js "t", JSValue.num 5)] := by
  refine ⟨rfl, rfl, ?_, rfl, rfl⟩
  intro h
  have h1 : (handleUpload chosen (some (js "t")) (CallResult.resolved created42)
      (CallResult.resolved emptySummaryBody)).summary =
      JSValue.str (js "Patient shows normal vitals.") := rfl
  rw [h1] at h
  have h2 := JSValue.str.inj h
  revert h2
  decide

/-- C12: a submit with no file chosen, or with no (or an empty) stored access
token, shows one error notification, makes no call to `uploadReport` or
`createSummary`, and never calls `setLoading`. -/
theorem no_upload_without_file_or_token (s : State) (token : Option JSString)
    (uploadRes sumRes : CallResult JSValue)
    (h : s.file = none ∨ MedRep.optTruthy token = false) :
    (∃ msg : JSString,
      (handleUpload s token uploadRes sumRes).notices = s.notices ++ [Notice.error msg]) ∧
    (handleUpload s token uploadRes sumRes).uploadCalls = s.uploadCalls ∧
    (handleUpload s token uploadRes sumRes).summaryCalls = s.summaryCalls ∧
    (handleUpload s token uploadRes sumRes).setLoadingCalls = s.setLoadingCalls ∧
    (handleUpload s token uploadRes sumRes).loading = s.loading := by
  cases hf : s.file with
  | none =>
    simp only [handleUpload, hf]
    refine ⟨⟨_, rfl⟩, ?_, ?_, ?_, ?_⟩ <;> first | rfl | trivial
  | some file =>
    have ht : MedRep.optTruthy token = false := by
      rcases h with h | h
      · rw [hf] at h
        cases h
      · exact h
    simp only [handleUpload, hf, ht]
    refine ⟨⟨_, rfl⟩, ?_, ?_, ?_, ?_⟩ <;> rfl

/-- Witness of C12: a file is chosen but no token is stored. -/
theorem no_upload_without_file_or_token_witness :
    (handleUpload chosen none (CallResult.resolved created42)
        (CallResult.resolved vitalsSummary)).notices =
      [Notice.error (js "You must be logged in to upload.")] ∧
    (handleUpload chosen none (CallResult.resolved created42)
        (CallResult.resolved vitalsSummary)).uploadCalls = [] ∧
    (handleUpload chosen none (CallResult.resolved created42)
        (CallResult.resolved vitalsSummary)).setLoadingCalls = [] :=
  have h := no_upload_without_file_or_token chosen none (CallResult.resolved created42)
    (CallResult.resolved vitalsSummary) (Or.inr rfl)
  ⟨rfl, h.2.1, h.2.2.2.1⟩

end Upload

namespace Dashboard

/-! ## The name of a card -/

/-- C13: the name of a card is the last `/`-separated segment of
`original_file` when that segment is non-empty, and the text `Report <id>`
(the id as a decimal numeral) otherwise, which includes a missing and an empty
`original_file`; `/u/x.png` gives `x.png`, and report 12 with
`original_file` `/u/` gives `Report 12`. -/
theorem card_name (toLowerCase : JSString → JSString) (latest : IdMap Summary) (r : Report) :
    (mapReport toLowerCase latest r).name =
      (if lastSegment r.original_file = [] then js "Report " ++ intToString r.id
       else lastSegment r.original_file) ∧
    lastSegment none = [] ∧
    lastSegment (some []) = [] ∧
    (mapReport toLowerCase latest imageReport).name = js "x.png" ∧
    (mapReport toLowerCase latest
      { id := 12, original_file := some (js "/u/"), extracted_text := none,
        uploaded_at := none, created_at := none }).name = js "Report 12" := by
  refine ⟨?_, rfl, rfl, rfl, rfl⟩
  show (if strTruthy (filenameOf r) then filenameOf r else js "Report " ++ intToString r.id) = _
  rw [filenameOf_eq_lastSegment]
  cases h : lastSegment r.original_file with
  | nil => simp [strTruthy]
  | cons c cs => simp [strTruthy]

end Dashboard

namespace Dashboard

/-! ## The shape of a snippet -/

theorem replaceWhiteSpaceRunsAux_shape (s : JSString) :
    ∀ inRun : Bool,
      (∀ c ∈ replaceWhiteSpaceRunsAux inRun s, isWhiteSpace c = true → c = 32) ∧
      List.Chain' (fun a b => ¬ (isWhiteSpace a = true ∧ isWhiteSpace b = true))
        (replaceWhiteSpaceRunsAux inRun s) ∧
      (inRun = true →
        ∀ c, (replaceWhiteSpaceRunsAux inRun s).head? = some c → isWhiteSpace c = false) := by
  induction s with
  | nil =>
    intro inRun
    simp [replaceWhiteSpaceRunsAux]
  | cons c cs ih =>
    intro inRun
    by_cases hc : isWhiteSpace c = true
    · cases inRun with
      | true =>
        have h := ih true
        simpa [replaceWhiteSpaceRunsAux, hc] using h
      | false =>
        obtain ⟨h1, h2, h3⟩ := ih true
        have hout : replaceWhiteSpaceRunsAux false (c :: cs) =
            32 :: replaceWhiteSpaceRunsAux true cs := by
          simp [replaceWhiteSpaceRunsAux, hc]
        rw [hout]
        refine ⟨?_, ?_, ?_⟩
        · intro x hx hws
          rcases List.mem_cons.1 hx with e | e
          · exact e
          · exact h1 x e hws
        · rw [List.chain'_cons']
          refine ⟨?_, h2⟩
          intro y hy hboth
          have hy' : (replaceWhiteSpaceRunsAux true cs).head? = some y := by simpa using hy
          have := h3 rfl y hy'
          rw [this] at hboth
          exact absurd hboth.2 (by simp)
        · intro hfalse
          cases hfalse
    · have hcf : isWhiteSpace c = false := by simpa using hc
      obtain ⟨h1, h2, _⟩ := ih false
      have hout : replaceWhiteSpaceRunsAux inRun (c :: cs) =
          c :: replaceWhiteSpaceRunsAux false cs := by
        simp [replaceWhiteSpaceRunsAux, hcf]
      rw [hout]
      refine ⟨?_, ?_, ?_⟩
      · intro x hx hws
        rcases List.mem_cons.1 hx with e | e
        · rw [e, hcf] at hws
          cases hws
        · exact h1 x e hws
      · rw [List.chain'_cons']
        refine ⟨?_, h2⟩
        intro y _ hboth
        rw [hcf] at hboth
        exact absurd hboth.1 (by simp)
      · intro _ x hx
        have : c = x := by simpa using hx
        rw [← this]
        exact hcf

theorem trim_eq_rdropWhile (s : JSString) :
    trim s = (s.dropWhile isWhiteSpace).rdropWhile isWhiteSpace := rfl

theorem head?_eq_of_isPrefix {l₁ l₂ : JSString} (h : l₁ <+: l₂) (c : CodeUnit)
    (hc : l₁.head? = some c) : l₂.head? = some c := by
  obtain ⟨t, rfl⟩ := h
  cases l₁ with
  | nil => simp at hc
  | cons x xs => simpa using hc

theorem snippet_eq_some (toLowerCase : JSString → JSString) (latest : IdMap Summary) (r : Report)
    (t : JSString) (h : (mapReport toLowerCase latest r).snippet = some t) :
    ∃ e : JSString, t = (trim (replaceWhiteSpaceRuns e)).take 180 := by
  rw [snippet_mapReport] at h
  unfold snippetOf at h
  cases hu : usableSummaryText (IdMap.get latest r.id) with
  | some x =>
    simp only [hu, slice0, cleanedOf, Option.some.injEq] at h
    exact ⟨x, h.symm⟩
  | none =>
    simp only [hu] at h
    split at h
    · split at h
      · simp only [slice0, cleanedOf, Option.some.injEq] at h
        exact ⟨_, h.symm⟩
      · cases h
    · cases h

/-- C14: a card's snippet is `null`, or a string of at most 180 code units
that does not begin with a whitespace character, in which every whitespace
character is a space (U+0020) and no two adjacent characters are both
whitespace. -/
theorem snippet_shape (toLowerCase : JSString → JSString) (summaries : List Summary)
    (r : Report) (t : JSString)
    (h : (mapReport toLowerCase (latestByReport summaries) r).snippet = some t) :
    t.length ≤ 180 ∧
    (∀ c, t.head? = some c → isWhiteSpace c = false) ∧
    (∀ c ∈ t, isWhiteSpace c = true → c = 32) ∧
    (∀ (pre post : JSString) (a b : CodeUnit), t = pre ++ a :: b :: post →
      ¬ (isWhiteSpace a = true ∧ isWhiteSpace b = true)) := by
  obtain ⟨e, rfl⟩ := snippet_eq_some toLowerCase _ r t h
  obtain ⟨h1, h2, _⟩ := replaceWhiteSpaceRunsAux_shape e false
  have hpre : (trim (replaceWhiteSpaceRuns e)).take 180 <+:
      (replaceWhiteSpaceRuns e).dropWhile isWhiteSpace := by
    rw [trim_eq_rdropWhile]
    exact List.IsPrefix.trans ( List.take_prefix _ _) ( List.rdropWhile_prefix _ _)
  have hsuf : (replaceWhiteSpaceRuns e).dropWhile isWhiteSpace <:+ replaceWhiteSpaceRuns e :=
    List.dropWhile_suffix _
  have hchain : List.Chain' (fun a b => ¬ (isWhiteSpace a = true ∧ isWhiteSpace b = true))
      ((trim (replaceWhiteSpaceRuns e)).take 180) :=
    List.Chain'.prefix (h2.suffix hsuf) hpre
  refine ⟨?_, ?_, ?_, ?_⟩
  · simp [List.length_take]
  · intro c hc
    have hd := head?_eq_of_isPrefix hpre c hc
    have hnot := List.head?_dropWhile_not isWhiteSpace (replaceWhiteSpaceRuns e)
    rw [hd] at hnot
    simpa using hnot
  · intro c hc hws
    exact h1 c (hsuf.subset (hpre.subset hc)) hws
  · intro pre post a b hsplit
    rw [hsplit] at hchain
    have hab : List.Chain' (fun a b => ¬ (isWhiteSpace a = true ∧ isWhiteSpace b = true))
        (a :: b :: post) := hchain.suffix ⟨pre, rfl⟩
    exact (List.chain'_cons.1 hab).1

/-- Witness of C14: the text report `/u/Notes.TXT`, whose snippet is
"blood pressure normal". -/
theorem snippet_shape_witness :
    (js "blood pressure normal").length ≤ 180 ∧
    (∀ c, (js "blood pressure normal").head? = some c → isWhiteSpace c = false) ∧
    (∀ c ∈ js "blood pressure normal", isWhiteSpace c = true → c = 32) ∧
    (∀ (pre post : JSString) (a b : CodeUnit),
      js "blood pressure normal" = pre ++ a :: b :: post →
      ¬ (isWhiteSpace a = true ∧ isWhiteSpace b = true)) :=
  snippet_shape asciiToLowerCase [] textReport (js "blood pressure normal") (by decide)

end Dashboard

end MedRep
